import Mathlib

/-!
Shallow embedding of `tomox/lending_state/state_lendingbook.go` from the
BuildOnViction/tomochain repository, together with theorems checking the
natural-language specification against it.

Translation conventions:
* 256-bit hash-shaped values (`common.Hash`) become `Nat`; byte-lexicographic
  order on fixed-width big-endian keys coincides with numeric order on `Nat`.
* Go maps (`map[common.Hash]*T` caches, `map[common.Hash]struct{}` dirty sets)
  become association lists `List (Hash × T)` and key lists `List Hash` with
  set-like insertion; Go pointer mutation becomes explicit state passing.
* The Merkle trie capability, the sub-state object types (`itemListState`,
  `lendingItemState`, `liquidationTimeState`), the `LendingStateDB` and the
  `common` helpers are repository code that is not part of the inspected
  source file; where they are needed they are modelled from the spec and
  marked `Modelled from the spec:` in their doc comments.
* Fallible Go operations return `Except`/`Option`; a Go `panic` (or a nil
  pointer dereference, which also aborts) is `Option.none` of the whole
  operation result.
* Two instrumentation counters (`onDirtyCalls`, `commitCalls`) record how
  often the owner-level onDirty callback fired and how often the underlying
  trie commit was invoked; no operation reads them.
-/

/-- 256-bit hash-shaped value (`common.Hash`). -/
abbrev Hash := Nat

/-- Raw encoded bytes of a trie leaf. -/
abbrev Bytes := List Nat

/-- Modelled from the spec: the package-level zero-hash sentinel `EmptyHash`
(`common.Hash{}`), used as the not-found / empty sentinel. -/
def EmptyHash : Hash := 0

/-- Database-level errors memoized by `setError`. -/
inductive GoError where
  | cantOpenTrie
  | readFailure
  | writeFailure
deriving DecidableEq

/-- Side constant `INVESTING` / `BORROWING` of the lending_state package. -/
inductive Side where
  | INVESTING
  | BORROWING
deriving DecidableEq

/-- Identifies which of the four Mark*Dirty methods a sub-state object was
constructed with (in Go, the function value passed as `onDirty`). -/
inductive CbTag where
  | markInvesting
  | markBorrowing
  | markLendingItem
  | markLiquidationTime
deriving DecidableEq

/-- Identifies the receiver a bound `self.Mark*Dirty` method value is attached
to, in a world holding an original exchange state and one deep copy. -/
inductive OwnerTag where
  | original
  | copied
deriving DecidableEq

/-- Association-list lookup (first binding wins), the model of Go map reads. -/
def lookupA {V : Type} : List (Hash × V) → Hash → Option V
  | [], _ => none
  | (k, v) :: rest, key => if k = key then some v else lookupA rest key

/-- Association-list insert-or-replace, the model of Go map writes. -/
def insertA {V : Type} : List (Hash × V) → Hash → V → List (Hash × V)
  | [], key, val => [(key, val)]
  | (k, v) :: rest, key, val =>
    if k = key then (key, val) :: rest else (k, v) :: insertA rest key val

/-- Set-like insertion of a key into a dirty-marker set. -/
def insertKey (key : Hash) (l : List Hash) : List Hash :=
  if key ∈ l then l else l ++ [key]

/-- Removal of a key from a dirty-marker set (Go `delete` on the marker map). -/
def removeKey : List Hash → Hash → List Hash
  | [], _ => []
  | x :: rest, key => if x = key then removeKey rest key else x :: removeKey rest key

/-- Modelled from the spec: the trie capability is an authenticated sorted
key-value map; here its observable content, as an association list. -/
abbrev Trie := List (Hash × Bytes)

/-- Trie `TryUpdate`: insert or replace a leaf. -/
def trieUpdate (t : Trie) (key : Hash) (v : Bytes) : Trie := insertA t key v

/-- Trie `TryDelete`: remove the leaf at a key. -/
def trieDelete : Trie → Hash → Trie
  | [], _ => []
  | (k, v) :: rest, key =>
    if k = key then trieDelete rest key else (k, v) :: trieDelete rest key

/-- Injective numeric code of a byte string, used by the modelled root hash. -/
def bytesCode : Bytes → Nat
  | [] => 0
  | b :: rest => Nat.pair b (bytesCode rest) + 1

/-- Modelled from the spec: the trie `Hash()` operation — a deterministic
function of the trie's content (the root changes iff some leaf changes). -/
def trieHash : Trie → Hash
  | [] => 1
  | (k, v) :: rest => 1 + Nat.pair (Nat.pair k (bytesCode v)) (trieHash rest)

/-- Modelled from the spec: the package-level `EmptyRoot` constant, the
canonical hash of an empty trie. -/
def EmptyRoot : Hash := trieHash []

/-- Modelled from the spec: `common.EmptyHash`, which recognizes the canonical
empty-trie hash used by the emptiness test. -/
def common_EmptyHash (h : Hash) : Bool := h == EmptyRoot

/-- Modelled from the spec: `common.BytesToHash` on a 32-byte big-endian key;
with keys as numbers this is the identity on 256-bit values. -/
def common_BytesToHash (n : Nat) : Hash := n % 2 ^ 256

/-- Modelled from the spec: `common.BigToHash(new(big.Int).SetUint64(n))`,
the 256-bit big-endian encoding of a numeric order id. -/
def common_BigToHash (n : Nat) : Hash := n % 2 ^ 256

/-- Trie `TryGetBestLeftKeyAndValue`: the binding with the smallest key.
Modelled from the spec: an extremal-key query over the sorted trie. -/
def bestLeftKV : Trie → Option (Hash × Bytes)
  | [] => none
  | kv :: rest =>
    match bestLeftKV rest with
    | none => some kv
    | some kv2 => if kv.1 ≤ kv2.1 then some kv else some kv2

/-- Trie `TryGetBestRightKeyAndValue`: the binding with the largest key.
Modelled from the spec: an extremal-key query over the sorted trie. -/
def bestRightKV : Trie → Option (Hash × Bytes)
  | [] => none
  | kv :: rest =>
    match bestRightKV rest with
    | none => some kv
    | some kv2 => if kv2.1 ≤ kv.1 then some kv else some kv2

/-- Persisted payload of one price/time bucket (`itemList`): the root of the
nested membership trie plus a scalar volume summary. -/
structure itemList where
  Root : Hash
  Volume : Nat
deriving DecidableEq

/-- The zero value `itemList{}` (Go zero hash and zero volume). -/
def itemListZero : itemList := { Root := EmptyHash, Volume := 0 }

/-- Full record of one lending/borrowing order (`LendingItem`); only the
fields the inspected source reads are carried. -/
structure LendingItem where
  OrderID : Nat
  Quantity : Nat
deriving DecidableEq

/-- Persisted root record of one order book (`lendingObject`). -/
structure lendingObject where
  Nonce : Nat
  InvestingRoot : Hash
  BorrowingRoot : Hash
  LendingItemRoot : Hash
  LiquidationTimeRoot : Hash
deriving DecidableEq

/-- RLP encoding of an `itemList` (deterministic, injective). -/
def encodeItemList (il : itemList) : Bytes := [0, il.Root, il.Volume]

/-- RLP decoding of an `itemList`; fails on malformed bytes. -/
def decodeItemList : Bytes → Option itemList
  | 0 :: r :: v :: [] => some { Root := r, Volume := v }
  | _ => none

/-- RLP encoding of a `LendingItem`. -/
def encodeLendingItem (li : LendingItem) : Bytes := [1, li.OrderID, li.Quantity]

/-- RLP decoding of a `LendingItem`; fails on malformed bytes. -/
def decodeLendingItem : Bytes → Option LendingItem
  | 1 :: i :: q :: [] => some { OrderID := i, Quantity := q }
  | _ => none

/-- Modelled from the spec: sub-state object for one price level
(`itemListState`): the decoded payload plus the dirty-notification callback it
was constructed with (`CbTag` says which Mark method, `OwnerTag` says which
exchange state the bound method receiver is). -/
structure itemListState where
  side : Side
  lendingBook : Hash
  price : Hash
  data : itemList
  cb : CbTag
  cbOwner : OwnerTag
deriving DecidableEq

/-- Modelled from the spec: `newItemListState(db, side, lendingBook, price,
data, onDirty)` without the ambient db handle. -/
def newItemListState (side : Side) (lendingBook price : Hash) (data : itemList)
    (cb : CbTag) (cbOwner : OwnerTag) : itemListState :=
  { side := side, lendingBook := lendingBook, price := price, data := data,
    cb := cb, cbOwner := cbOwner }

/-- Modelled from the spec: `itemListState.empty()` — no root and no summary
content remain. -/
def itemListState.empty (o : itemListState) : Bool :=
  (o.data.Root == EmptyHash || o.data.Root == EmptyRoot) && o.data.Volume == 0

/-- Modelled from the spec: `itemListState.updateRoot(db)` flushes nested dirty
members and recomputes the stored root; the nested membership tries are kept
abstract here (no nested member is separately materialized), so the recomputed
root is the stored root. -/
def itemListState.updateRoot (o : itemListState) : itemListState := o

/-- Modelled from the spec: `itemListState.deepCopy(db, onDirty)` — the data is
copied by value, the callback is replaced by the supplied one. -/
def itemListState.deepCopyWith (o : itemListState) (cb : CbTag)
    (cbOwner : OwnerTag) : itemListState :=
  { o with cb := cb, cbOwner := cbOwner }

/-- Modelled from the spec: `EncodeRLP` of an `itemListState` encodes its
payload; encoding a freshly constructed object is total. -/
def encodeItemListState (o : itemListState) : Option Bytes :=
  some (encodeItemList o.data)

/-- Modelled from the spec: sub-state object for one liquidation timestamp
(`liquidationTimeState`). -/
structure liquidationTimeState where
  lendingBook : Hash
  time : Hash
  data : itemList
  cb : CbTag
  cbOwner : OwnerTag
deriving DecidableEq

/-- Modelled from the spec: `newLiquidationTimeState(db, lendingBook, time,
data, onDirty)` without the ambient db handle; the positional argument order
matters at call sites. -/
def newLiquidationTimeState (lendingBook time : Hash) (data : itemList)
    (cb : CbTag) (cbOwner : OwnerTag) : liquidationTimeState :=
  { lendingBook := lendingBook, time := time, data := data,
    cb := cb, cbOwner := cbOwner }

/-- Modelled from the spec: `liquidationTimeState.empty()`. -/
def liquidationTimeState.empty (o : liquidationTimeState) : Bool :=
  (o.data.Root == EmptyHash || o.data.Root == EmptyRoot) && o.data.Volume == 0

/-- Modelled from the spec: `liquidationTimeState.updateRoot(db)`; the nested
membership tries are kept abstract, so the stored root is preserved. -/
def liquidationTimeState.updateRoot (o : liquidationTimeState) :
    liquidationTimeState := o

/-- Modelled from the spec: `liquidationTimeState.deepCopy(db, onDirty)`. -/
def liquidationTimeState.deepCopyWith (o : liquidationTimeState) (cb : CbTag)
    (cbOwner : OwnerTag) : liquidationTimeState :=
  { o with cb := cb, cbOwner := cbOwner }

/-- Modelled from the spec: sub-state object wrapping one `LendingItem` leaf
(`lendingItemState`); not trie-rooted. -/
structure lendingItemState where
  lendingBook : Hash
  lendingId : Hash
  data : LendingItem
  cb : CbTag
  cbOwner : OwnerTag
deriving DecidableEq

/-- Modelled from the spec: `newLendinItemState(lendingBook, orderId, data,
onDirty)` (the source spells the constructor without the `g`). -/
def newLendinItemState (lendingBook lendingId : Hash) (data : LendingItem)
    (cb : CbTag) (cbOwner : OwnerTag) : lendingItemState :=
  { lendingBook := lendingBook, lendingId := lendingId, data := data,
    cb := cb, cbOwner := cbOwner }

/-- Modelled from the spec: `lendingItemState.empty()` is the zero value of its
record. -/
def lendingItemState.empty (o : lendingItemState) : Bool :=
  o.data.OrderID == 0 && o.data.Quantity == 0

/-- Modelled from the spec: `lendingItemState.deepCopy(onDirty)`. -/
def lendingItemState.deepCopyWith (o : lendingItemState) (cb : CbTag)
    (cbOwner : OwnerTag) : lendingItemState :=
  { o with cb := cb, cbOwner := cbOwner }

/-- Modelled from the spec: `EncodeRLP` of a `lendingItemState` encodes its
record. -/
def encodeLendingItemState (o : lendingItemState) : Option Bytes :=
  some (encodeLendingItem o.data)

/-- Modelled from the spec: the persistence layer, as a map from root hashes to
the trie contents persisted under them (`OpenStorageTrie` resolves a root). -/
abbrev DB := List (Hash × Trie)

/-- Modelled from the spec: `db.OpenStorageTrie(lendingBook, root)` — resolve a
root hash to a trie, the empty roots resolving to the empty trie; fails when
the root is unknown. -/
def openStorageTrie (db : DB) (root : Hash) : Except GoError Trie :=
  if root = EmptyHash ∨ root = EmptyRoot then Except.ok []
  else
    match lookupA db root with
    | some t => Except.ok t
    | none => Except.error GoError.cantOpenTrie

/-- The per-order-book state object `lendingExchangeState`.

`onDirty` models whether the owner-level callback reference is still set (it is
cleared after its first invocation); `onDirtyCalls` and `commitCalls` are
instrumentation counters (see the file header) that no operation reads. -/
structure lendingExchangeState where
  lendingBook : Hash
  data : lendingObject
  dbErr : Option GoError
  investingTrie : Option Trie
  borrowingTrie : Option Trie
  lendingTrie : Option Trie
  liquidationTimeTrie : Option Trie
  liquidationTimeStates : List (Hash × liquidationTimeState)
  liquidationTimestatesDirty : List Hash
  investingStates : List (Hash × itemListState)
  investingStatesDirty : List Hash
  borrowingStates : List (Hash × itemListState)
  borrowingStatesDirty : List Hash
  lendingItemStates : List (Hash × lendingItemState)
  lendingItemStatesDirty : List Hash
  onDirty : Bool
  onDirtyCalls : Nat
  commitCalls : Nat
deriving DecidableEq

namespace lendingExchangeState

/-- The constructor `newStateExchanges(db, hash, data, onDirty)`: fresh empty
caches and dirty sets, no tries opened yet. -/
def newStateExchanges (hash : Hash) (data : lendingObject) (onDirty : Bool) :
    lendingExchangeState :=
  { lendingBook := hash
    data := data
    dbErr := none
    investingTrie := none
    borrowingTrie := none
    lendingTrie := none
    liquidationTimeTrie := none
    liquidationTimeStates := []
    liquidationTimestatesDirty := []
    investingStates := []
    investingStatesDirty := []
    borrowingStates := []
    borrowingStatesDirty := []
    lendingItemStates := []
    lendingItemStatesDirty := []
    onDirty := onDirty
    onDirtyCalls := 0
    commitCalls := 0 }

/-- The emptiness test `empty()` of a `lendingExchangeState`. -/
def empty (s : lendingExchangeState) : Bool :=
  s.data.Nonce == 0 && common_EmptyHash s.data.InvestingRoot
    && common_EmptyHash s.data.BorrowingRoot

/-- `setError` remembers the first non-nil error it is called with. -/
def setError (err : Option GoError) (s : lendingExchangeState) :
    lendingExchangeState :=
  if s.dbErr = none then { s with dbErr := err } else s

/-- Invoke the owner-level onDirty callback if it is still set, then clear it
(the `if self.onDirty != nil` pattern at the end of every mutating method). -/
def fireOnDirty (s : lendingExchangeState) : lendingExchangeState :=
  if s.onDirty then
    { s with onDirty := false, onDirtyCalls := s.onDirtyCalls + 1 }
  else s

/-- `MarkInvestingDirty`. -/
def MarkInvestingDirty (price : Hash) (s : lendingExchangeState) :
    lendingExchangeState :=
  fireOnDirty { s with investingStatesDirty := insertKey price s.investingStatesDirty }

/-- `MarkBorrowingDirty`. -/
def MarkBorrowingDirty (price : Hash) (s : lendingExchangeState) :
    lendingExchangeState :=
  fireOnDirty { s with borrowingStatesDirty := insertKey price s.borrowingStatesDirty }

/-- `MarkLendingItemDirty`. -/
def MarkLendingItemDirty (orderId : Hash) (s : lendingExchangeState) :
    lendingExchangeState :=
  fireOnDirty { s with lendingItemStatesDirty := insertKey orderId s.lendingItemStatesDirty }

/-- `MarkLiquidationTimeDirty`. -/
def MarkLiquidationTimeDirty (orderId : Hash) (s : lendingExchangeState) :
    lendingExchangeState :=
  fireOnDirty { s with liquidationTimestatesDirty := insertKey orderId s.liquidationTimestatesDirty }

/-- Dispatch a stored callback tag against one exchange state (the model of
calling a bound `self.Mark*Dirty` method value). -/
def applyCbTag (cb : CbTag) (key : Hash) (s : lendingExchangeState) :
    lendingExchangeState :=
  match cb with
  | CbTag.markInvesting => MarkInvestingDirty key s
  | CbTag.markBorrowing => MarkBorrowingDirty key s
  | CbTag.markLendingItem => MarkLendingItemDirty key s
  | CbTag.markLiquidationTime => MarkLiquidationTimeDirty key s

/-- `setNonce` (and the exported `SetNonce`). -/
def setNonce (nonce : Nat) (s : lendingExchangeState) : lendingExchangeState :=
  fireOnDirty { s with data := { s.data with Nonce := nonce } }

/-- `getInvestingTrie(db)`: lazily open the investing trie from the stored
root, falling back to an empty trie and memoizing an error on failure. -/
def getInvestingTrie (db : DB) (s : lendingExchangeState) :
    lendingExchangeState × Trie :=
  match s.investingTrie with
  | some t => (s, t)
  | none =>
    match openStorageTrie db s.data.InvestingRoot with
    | Except.ok t => ({ s with investingTrie := some t }, t)
    | Except.error e => (setError (some e) { s with investingTrie := some [] }, [])

/-- `getBorrowingTrie(db)`. -/
def getBorrowingTrie (db : DB) (s : lendingExchangeState) :
    lendingExchangeState × Trie :=
  match s.borrowingTrie with
  | some t => (s, t)
  | none =>
    match openStorageTrie db s.data.BorrowingRoot with
    | Except.ok t => ({ s with borrowingTrie := some t }, t)
    | Except.error e => (setError (some e) { s with borrowingTrie := some [] }, [])

/-- `getLendingItemTrie(db)`. -/
def getLendingItemTrie (db : DB) (s : lendingExchangeState) :
    lendingExchangeState × Trie :=
  match s.lendingTrie with
  | some t => (s, t)
  | none =>
    match openStorageTrie db s.data.LendingItemRoot with
    | Except.ok t => ({ s with lendingTrie := some t }, t)
    | Except.error e => (setError (some e) { s with lendingTrie := some [] }, [])

/-- `getLiquidationTimeTrie(db)`. -/
def getLiquidationTimeTrie (db : DB) (s : lendingExchangeState) :
    lendingExchangeState × Trie :=
  match s.liquidationTimeTrie with
  | some t => (s, t)
  | none =>
    match openStorageTrie db s.data.LiquidationTimeRoot with
    | Except.ok t => ({ s with liquidationTimeTrie := some t }, t)
    | Except.error e => (setError (some e) { s with liquidationTimeTrie := some [] }, [])

/-- `getBorrowingOrderList(db, rate)`: prefer the live object; otherwise load
the leaf, decode it (absence or a decode failure yields the nil sentinel), wrap
it with `self.MarkBorrowingDirty` and cache it.  `me` names the receiver the
bound callback attaches to. -/
def getBorrowingOrderList (db : DB) (me : OwnerTag) (s : lendingExchangeState)
    (rate : Hash) : lendingExchangeState × Option itemListState :=
  match lookupA s.borrowingStates rate with
  | some obj => (s, some obj)
  | none =>
    let p := getBorrowingTrie db s
    match lookupA p.2 rate with
    | none => (setError none p.1, none)
    | some enc =>
      match decodeItemList enc with
      | none => (p.1, none)
      | some data =>
        let obj := newItemListState Side.BORROWING p.1.lendingBook rate data
          CbTag.markBorrowing me
        ({ p.1 with borrowingStates := insertA p.1.borrowingStates rate obj },
          some obj)

/-- `getInvestingOrderList(db, rate)`; note the source wraps the loaded object
with `self.MarkBorrowingDirty`, not `self.MarkInvestingDirty`. -/
def getInvestingOrderList (db : DB) (me : OwnerTag) (s : lendingExchangeState)
    (rate : Hash) : lendingExchangeState × Option itemListState :=
  match lookupA s.investingStates rate with
  | some obj => (s, some obj)
  | none =>
    let p := getInvestingTrie db s
    match lookupA p.2 rate with
    | none => (setError none p.1, none)
    | some enc =>
      match decodeItemList enc with
      | none => (p.1, none)
      | some data =>
        let obj := newItemListState Side.INVESTING p.1.lendingBook rate data
          CbTag.markBorrowing me
        ({ p.1 with investingStates := insertA p.1.investingStates rate obj },
          some obj)

/-- `getLiquidationTimeOrderList(db, time)`; note the source wraps the loaded
object with `self.MarkInvestingDirty`. -/
def getLiquidationTimeOrderList (db : DB) (me : OwnerTag)
    (s : lendingExchangeState) (time : Hash) :
    lendingExchangeState × Option liquidationTimeState :=
  match lookupA s.liquidationTimeStates time with
  | some obj => (s, some obj)
  | none =>
    let p := getLiquidationTimeTrie db s
    match lookupA p.2 time with
    | none => (setError none p.1, none)
    | some enc =>
      match decodeItemList enc with
      | none => (p.1, none)
      | some data =>
        let obj := newLiquidationTimeState p.1.lendingBook time data
          CbTag.markInvesting me
        ({ p.1 with liquidationTimeStates := insertA p.1.liquidationTimeStates time obj },
          some obj)

/-- `getLendingItem(db, lendingId)`. -/
def getLendingItem (db : DB) (me : OwnerTag) (s : lendingExchangeState)
    (lendingId : Hash) : lendingExchangeState × Option lendingItemState :=
  match lookupA s.lendingItemStates lendingId with
  | some obj => (s, some obj)
  | none =>
    let p := getLendingItemTrie db s
    match lookupA p.2 lendingId with
    | none => (setError none p.1, none)
    | some enc =>
      match decodeLendingItem enc with
      | none => (p.1, none)
      | some data =>
        let obj := newLendinItemState p.1.lendingBook lendingId data
          CbTag.markLendingItem me
        ({ p.1 with lendingItemStates := insertA p.1.lendingItemStates lendingId obj },
          some obj)

/-- The dirty-flush loop of `updateInvestingTrie` / `updateBorrowingTrie`:
walk the live cache; an entry with a dirty marker has its marker deleted and is
flushed into the trie (deleted instead when the sub-state is empty).  The
in-memory trie writes cannot fail, matching the ignored error of the source's
`TryUpdate`/`TryDelete` on the in-memory trie. -/
def flushItemLists : List (Hash × itemListState) → Trie → List Hash →
    Trie × List Hash
  | [], tr, dirty => (tr, dirty)
  | (k, o) :: rest, tr, dirty =>
    if k ∈ dirty then
      if o.empty then flushItemLists rest (trieDelete tr k) (removeKey dirty k)
      else
        flushItemLists rest
          (trieUpdate tr k (encodeItemList o.updateRoot.data))
          (removeKey dirty k)
    else flushItemLists rest tr dirty

/-- The dirty-flush loop of `updateLendingTimeTrie` (the lending-item trie). -/
def flushLendingItems : List (Hash × lendingItemState) → Trie → List Hash →
    Trie × List Hash
  | [], tr, dirty => (tr, dirty)
  | (k, o) :: rest, tr, dirty =>
    if k ∈ dirty then
      if o.empty then flushLendingItems rest (trieDelete tr k) (removeKey dirty k)
      else
        flushLendingItems rest (trieUpdate tr k (encodeLendingItem o.data))
          (removeKey dirty k)
    else flushLendingItems rest tr dirty

/-- The dirty-flush loop of `updateLiquidationTimeTrie`. -/
def flushLiquidationTimes : List (Hash × liquidationTimeState) → Trie →
    List Hash → Trie × List Hash
  | [], tr, dirty => (tr, dirty)
  | (k, o) :: rest, tr, dirty =>
    if k ∈ dirty then
      if o.empty then
        flushLiquidationTimes rest (trieDelete tr k) (removeKey dirty k)
      else
        flushLiquidationTimes rest
          (trieUpdate tr k (encodeItemList o.updateRoot.data))
          (removeKey dirty k)
    else flushLiquidationTimes rest tr dirty

/-- `updateLendingTimeTrie(db)` (the source's name for the lending-item trie
flush). -/
def updateLendingTimeTrie (db : DB) (s : lendingExchangeState) :
    lendingExchangeState :=
  let p := getLendingItemTrie db s
  let q := flushLendingItems p.1.lendingItemStates p.2 p.1.lendingItemStatesDirty
  { p.1 with lendingTrie := some q.1, lendingItemStatesDirty := q.2 }

/-- `updateBorrowingTrie(db)`. -/
def updateBorrowingTrie (db : DB) (s : lendingExchangeState) :
    lendingExchangeState :=
  let p := getBorrowingTrie db s
  let q := flushItemLists p.1.borrowingStates p.2 p.1.borrowingStatesDirty
  { p.1 with borrowingTrie := some q.1, borrowingStatesDirty := q.2 }

/-- `updateInvestingTrie(db)`. -/
def updateInvestingTrie (db : DB) (s : lendingExchangeState) :
    lendingExchangeState :=
  let p := getInvestingTrie db s
  let q := flushItemLists p.1.investingStates p.2 p.1.investingStatesDirty
  { p.1 with investingTrie := some q.1, investingStatesDirty := q.2 }

/-- `updateLiquidationTimeTrie(db)`. -/
def updateLiquidationTimeTrie (db : DB) (s : lendingExchangeState) :
    lendingExchangeState :=
  let p := getLiquidationTimeTrie db s
  let q := flushLiquidationTimes p.1.liquidationTimeStates p.2
    p.1.liquidationTimestatesDirty
  { p.1 with liquidationTimeTrie := some q.1,
             liquidationTimestatesDirty := q.2 }

/-- `updateOrderRoot(db)`: flush the lending-item trie, then store its hash. -/
def updateOrderRoot (db : DB) (s : lendingExchangeState) :
    lendingExchangeState :=
  let s1 := updateLendingTimeTrie db s
  { s1 with data :=
      { s1.data with LendingItemRoot := trieHash (s1.lendingTrie.getD []) } }

/-- `updateInvestingRoot(db)`: flush the investing trie; on a memoized error
return it without storing the new root. -/
def updateInvestingRoot (db : DB) (s : lendingExchangeState) :
    lendingExchangeState × Option GoError :=
  let s1 := updateInvestingTrie db s
  match s1.dbErr with
  | some e => (s1, some e)
  | none =>
    ({ s1 with data :=
        { s1.data with InvestingRoot := trieHash (s1.investingTrie.getD []) } },
      none)

/-- `updateBorrowingRoot(db)`: flush, then store the new root (no error
check in the source). -/
def updateBorrowingRoot (db : DB) (s : lendingExchangeState) :
    lendingExchangeState :=
  let s1 := updateBorrowingTrie db s
  { s1 with data :=
      { s1.data with BorrowingRoot := trieHash (s1.borrowingTrie.getD []) } }

/-- `updateLiquidationTimeRoot(db)`. -/
def updateLiquidationTimeRoot (db : DB) (s : lendingExchangeState) :
    lendingExchangeState :=
  let s1 := updateLiquidationTimeTrie db s
  { s1 with data :=
      { s1.data with LiquidationTimeRoot := trieHash (s1.liquidationTimeTrie.getD []) } }

/-- `CommitLendingItemTrie(db)`: flush, fail closed on a memoized error,
otherwise invoke the trie commit and store the committed root.  The modelled
trie commit returns the content hash and cannot itself fail. -/
def CommitLendingItemTrie (db : DB) (s : lendingExchangeState) :
    lendingExchangeState × Option GoError :=
  let s1 := updateLendingTimeTrie db s
  match s1.dbErr with
  | some e => (s1, some e)
  | none =>
    let root := trieHash (s1.lendingTrie.getD [])
    ({ s1 with data := { s1.data with LendingItemRoot := root },
               commitCalls := s1.commitCalls + 1 }, none)

/-- `CommitInvestingTrie(db)` (the per-leaf reference-registration callback of
the source acts only on the external persistence layer). -/
def CommitInvestingTrie (db : DB) (s : lendingExchangeState) :
    lendingExchangeState × Option GoError :=
  let s1 := updateInvestingTrie db s
  match s1.dbErr with
  | some e => (s1, some e)
  | none =>
    let root := trieHash (s1.investingTrie.getD [])
    ({ s1 with data := { s1.data with InvestingRoot := root },
               commitCalls := s1.commitCalls + 1 }, none)

/-- `CommitBorrowingTrie(db)`. -/
def CommitBorrowingTrie (db : DB) (s : lendingExchangeState) :
    lendingExchangeState × Option GoError :=
  let s1 := updateBorrowingTrie db s
  match s1.dbErr with
  | some e => (s1, some e)
  | none =>
    let root := trieHash (s1.borrowingTrie.getD [])
    ({ s1 with data := { s1.data with BorrowingRoot := root },
               commitCalls := s1.commitCalls + 1 }, none)

/-- `CommitLiquidationTimeTrie(db)`. -/
def CommitLiquidationTimeTrie (db : DB) (s : lendingExchangeState) :
    lendingExchangeState × Option GoError :=
  let s1 := updateLiquidationTimeTrie db s
  match s1.dbErr with
  | some e => (s1, some e)
  | none =>
    let root := trieHash (s1.liquidationTimeTrie.getD [])
    ({ s1 with data := { s1.data with LiquidationTimeRoot := root },
               commitCalls := s1.commitCalls + 1 }, none)

/-- `getBestInvestingRate(db)`: the left-most key of the investing trie, or the
empty-hash sentinel when the trie is empty, the query fails, or the stored
value does not decode. -/
def getBestInvestingRate (db : DB) (s : lendingExchangeState) :
    lendingExchangeState × Hash :=
  let p := getInvestingTrie db s
  match bestLeftKV p.2 with
  | none => (p.1, EmptyHash)
  | some kv =>
    match decodeItemList kv.2 with
    | none => (p.1, EmptyHash)
    | some _ => (p.1, common_BytesToHash kv.1)

/-- `getBestBorrowingRate(db)`: the right-most key of the borrowing trie, with
the same sentinel behaviour. -/
def getBestBorrowingRate (db : DB) (s : lendingExchangeState) :
    lendingExchangeState × Hash :=
  let p := getBorrowingTrie db s
  match bestRightKV p.2 with
  | none => (p.1, EmptyHash)
  | some kv =>
    match decodeItemList kv.2 with
    | none => (p.1, EmptyHash)
    | some _ => (p.1, common_BytesToHash kv.1)

/-- `removeInvestingOrderList(db, stateOrderList)`: delete that price's leaf
from the investing trie (a nil trie dereference aborts, hence `Option`). -/
def removeInvestingOrderList (db : DB) (s : lendingExchangeState)
    (stateOrderList : itemListState) : Option lendingExchangeState :=
  match s.investingTrie with
  | none => none
  | some t =>
    some (setError none { s with investingTrie := some (trieDelete t stateOrderList.price) })

/-- `removeBorrowingOrderList(db, stateOrderList)`. -/
def removeBorrowingOrderList (db : DB) (s : lendingExchangeState)
    (stateOrderList : itemListState) : Option lendingExchangeState :=
  match s.borrowingTrie with
  | none => none
  | some t =>
    some (setError none { s with borrowingTrie := some (trieDelete t stateOrderList.price) })

/-- `createInvestingOrderList(db, price)`: construct, cache, mark dirty, then
eagerly encode and write into the investing trie, and fire onDirty.  `none`
models the panic on an encode failure and the abort of a nil trie handle. -/
def createInvestingOrderList (db : DB) (me : OwnerTag)
    (s : lendingExchangeState) (price : Hash) : Option lendingExchangeState :=
  let newobj := newItemListState Side.INVESTING s.lendingBook price itemListZero
    CbTag.markInvesting me
  match encodeItemListState newobj with
  | none => none
  | some data =>
    match s.investingTrie with
    | none => none
    | some t =>
      some (fireOnDirty (setError none
        { s with investingStates := insertA s.investingStates price newobj,
                 investingStatesDirty := insertKey price s.investingStatesDirty,
                 investingTrie := some (trieUpdate t price data) }))

/-- `createBorrowingOrderList(db, price)`. -/
def createBorrowingOrderList (db : DB) (me : OwnerTag)
    (s : lendingExchangeState) (price : Hash) : Option lendingExchangeState :=
  let newobj := newItemListState Side.BORROWING s.lendingBook price itemListZero
    CbTag.markBorrowing me
  match encodeItemListState newobj with
  | none => none
  | some data =>
    match s.borrowingTrie with
    | none => none
    | some t =>
      some (fireOnDirty (setError none
        { s with borrowingStates := insertA s.borrowingStates price newobj,
                 borrowingStatesDirty := insertKey price s.borrowingStatesDirty,
                 borrowingTrie := some (trieUpdate t price data) }))

/-- `createLendingItem(db, orderId, order)`: the new object is cached and
marked dirty under the hash of `order.OrderID` (not under the `orderId`
argument); no trie write is performed. -/
def createLendingItem (db : DB) (me : OwnerTag) (s : lendingExchangeState)
    (orderId : Hash) (order : LendingItem) : lendingExchangeState :=
  let newobj := newLendinItemState s.lendingBook orderId order
    CbTag.markLendingItem me
  let orderIdHash := common_BigToHash order.OrderID
  let s1 := { s with
    lendingItemStates := insertA s.lendingItemStates orderIdHash newobj,
    lendingItemStatesDirty := insertKey orderIdHash s.lendingItemStatesDirty }
  fireOnDirty s1

/-- `createLiquidationTime(db, time)`: the source passes `time` and the order
book id to the constructor in swapped positions, wraps the object with
`self.MarkLendingItemDirty`, marks `lendingItemStatesDirty` (not the
liquidation-time dirty set), performs no trie write, and never fires
onDirty. -/
def createLiquidationTime (db : DB) (me : OwnerTag) (s : lendingExchangeState)
    (time : Hash) : lendingExchangeState :=
  let newobj := newLiquidationTimeState time s.lendingBook itemListZero
    CbTag.markLendingItem me
  { s with liquidationTimeStates := insertA s.liquidationTimeStates time newobj,
           lendingItemStatesDirty := insertKey time s.lendingItemStatesDirty }

/-- `deepCopy(db, onDirty)`: a fresh object over the same persisted record,
cloned trie handles for the investing, borrowing and lending-item tries (the
liquidation-time handle is not cloned), recursively copied live sub-state
objects, and copied dirty markers.  Every copied sub-state object keeps a
callback bound to `self` — the state being copied (`selfOwner`), exactly as the
source passes `self.Mark*Dirty`. -/
def deepCopy (s : lendingExchangeState) (selfOwner : OwnerTag)
    (onDirty : Bool) : lendingExchangeState :=
  let base := newStateExchanges s.lendingBook s.data onDirty
  { base with
    investingTrie := s.investingTrie
    borrowingTrie := s.borrowingTrie
    lendingTrie := s.lendingTrie
    borrowingStates := s.borrowingStates.map
      (fun kv => (kv.1, kv.2.deepCopyWith CbTag.markBorrowing selfOwner))
    borrowingStatesDirty := s.borrowingStatesDirty
    investingStates := s.investingStates.map
      (fun kv => (kv.1, kv.2.deepCopyWith CbTag.markInvesting selfOwner))
    investingStatesDirty := s.investingStatesDirty
    lendingItemStates := s.lendingItemStates.map
      (fun kv => (kv.1, kv.2.deepCopyWith CbTag.markLendingItem selfOwner))
    lendingItemStatesDirty := s.lendingItemStatesDirty
    liquidationTimeStates := s.liquidationTimeStates.map
      (fun kv => (kv.1, kv.2.deepCopyWith CbTag.markLiquidationTime selfOwner))
    liquidationTimestatesDirty := s.liquidationTimestatesDirty }

/-- Modelled from the spec: an in-place field mutation of the order list
returned by `getInvestingOrderList` (a volume change), which fires the
dirty-notification callback the object was constructed with.  In a single-state
context the callback runs against this same state. -/
def mutateInvestingOrderListVolume (db : DB) (s : lendingExchangeState)
    (rate amount : Hash) : lendingExchangeState :=
  match getInvestingOrderList db OwnerTag.original s rate with
  | (s1, none) => s1
  | (s1, some obj) =>
    let obj2 := { obj with data := { obj.data with Volume := obj.data.Volume + amount } }
    let s2 := { s1 with investingStates := insertA s1.investingStates rate obj2 }
    applyCbTag obj.cb rate s2

/-- Modelled from the spec: an in-place mutation of the object returned by
`getLiquidationTimeOrderList`, firing its stored callback. -/
def mutateLiquidationTimeVolume (db : DB) (s : lendingExchangeState)
    (time amount : Hash) : lendingExchangeState :=
  match getLiquidationTimeOrderList db OwnerTag.original s time with
  | (s1, none) => s1
  | (s1, some obj) =>
    let obj2 := { obj with data := { obj.data with Volume := obj.data.Volume + amount } }
    let s2 := { s1 with liquidationTimeStates := insertA s1.liquidationTimeStates time obj2 }
    applyCbTag obj.cb time s2

end lendingExchangeState

open lendingExchangeState

/-- A world holding an exchange state and one deep copy of it, so that a
callback bound to either receiver can be dispatched. -/
structure World where
  original : lendingExchangeState
  copied : lendingExchangeState
deriving DecidableEq

namespace World

/-- Project the state a tag names. -/
def getState (w : World) : OwnerTag → lendingExchangeState
  | OwnerTag.original => w.original
  | OwnerTag.copied => w.copied

/-- Replace the state a tag names. -/
def setState (w : World) : OwnerTag → lendingExchangeState → World
  | OwnerTag.original, s => { w with original := s }
  | OwnerTag.copied, s => { w with copied := s }

/-- Dispatch a sub-state object's stored callback against the receiver it is
bound to. -/
def dispatchCb (w : World) (owner : OwnerTag) (cb : CbTag) (key : Hash) :
    World :=
  w.setState owner (applyCbTag cb key (w.getState owner))

/-- Modelled from the spec: an in-place volume mutation of the live borrowing
sub-state object cached at `rate` in the state `who` names; the mutation is
visible through that cache and fires the object's stored callback against the
receiver the callback is bound to. -/
def mutateBorrowingVolume (w : World) (who : OwnerTag) (rate amount : Hash) :
    World :=
  match lookupA (w.getState who).borrowingStates rate with
  | none => w
  | some obj =>
    let obj2 := { obj with data := { obj.data with Volume := obj.data.Volume + amount } }
    let s2 := { w.getState who with
      borrowingStates := insertA (w.getState who).borrowingStates rate obj2 }
    (w.setState who s2).dispatchCb obj.cbOwner obj.cb rate

end World

/-- The mutating operations of the claim about the owner-level dirty
notification: `SetNonce`, the four create operations, and the four Mark*Dirty
notifications. -/
inductive MutOp where
  | setNonceOp (n : Nat)
  | createInvestingOp (price : Hash)
  | createBorrowingOp (price : Hash)
  | createLendingItemOp (orderId : Hash) (order : LendingItem)
  | createLiquidationTimeOp (time : Hash)
  | markInvestingOp (p : Hash)
  | markBorrowingOp (p : Hash)
  | markLendingItemOp (p : Hash)
  | markLiquidationTimeOp (p : Hash)
deriving DecidableEq

/-- Run one mutating operation (`none` when the operation aborts). -/
def applyOp (db : DB) (op : MutOp) (s : lendingExchangeState) :
    Option lendingExchangeState :=
  match op with
  | MutOp.setNonceOp n => some (setNonce n s)
  | MutOp.createInvestingOp p => createInvestingOrderList db OwnerTag.original s p
  | MutOp.createBorrowingOp p => createBorrowingOrderList db OwnerTag.original s p
  | MutOp.createLendingItemOp orderId order =>
    some (createLendingItem db OwnerTag.original s orderId order)
  | MutOp.createLiquidationTimeOp t =>
    some (createLiquidationTime db OwnerTag.original s t)
  | MutOp.markInvestingOp p => some (MarkInvestingDirty p s)
  | MutOp.markBorrowingOp p => some (MarkBorrowingDirty p s)
  | MutOp.markLendingItemOp p => some (MarkLendingItemDirty p s)
  | MutOp.markLiquidationTimeOp p => some (MarkLiquidationTimeDirty p s)

/-- Run a sequence of mutating operations. -/
def applySeq (db : DB) : List MutOp → lendingExchangeState →
    Option lendingExchangeState
  | [], s => some s
  | op :: rest, s =>
    match applyOp db op s with
    | none => none
    | some s2 => applySeq db rest s2

/-- Whether an operation reaches the shared fire-and-clear epilogue: every
listed mutating operation does, except `createLiquidationTime`. -/
def opFires : MutOp → Bool
  | MutOp.createLiquidationTimeOp _ => false
  | _ => true

/-- Fold `setError` over a list of error arguments. -/
def runSetErrors (errs : List (Option GoError)) (s : lendingExchangeState) :
    lendingExchangeState :=
  errs.foldl (fun st e => setError e st) s

/-- The first non-nil entry of a list of error arguments. -/
def firstSome : List (Option GoError) → Option GoError
  | [] => none
  | some e :: _ => some e
  | none :: rest => firstSome rest

/-! Concrete inputs used to evaluate the definitions at particular states. -/

/-- A zero persisted record. -/
def dataZero : lendingObject :=
  { Nonce := 0, InvestingRoot := EmptyHash, BorrowingRoot := EmptyHash,
    LendingItemRoot := EmptyHash, LiquidationTimeRoot := EmptyHash }

/-- An empty database. -/
def dbNone : DB := []

/-- A state whose investing trie holds a leaf at rate 5 and whose
liquidation-time trie holds a leaf at time 9, with no live objects yet. -/
def sCross : lendingExchangeState :=
  { lendingExchangeState.newStateExchanges 100 dataZero true with
    investingTrie := some [(5, encodeItemList { Root := EmptyHash, Volume := 7 })]
    borrowingTrie := some []
    lendingTrie := some []
    liquidationTimeTrie := some [(9, encodeItemList { Root := EmptyHash, Volume := 3 })] }

/-- `sCross` after mutating the object returned by `getInvestingOrderList`
at rate 5 and then the object returned by `getLiquidationTimeOrderList` at
time 9. -/
def sCrossAfter : lendingExchangeState :=
  mutateLiquidationTimeVolume dbNone
    (mutateInvestingOrderListVolume dbNone sCross 5 10) 9 2

/-- A live borrowing order list at rate 5 whose callback is the owning state's
`MarkBorrowingDirty`, as `getBorrowingOrderList` constructs it. -/
def objSnap : itemListState :=
  newItemListState Side.BORROWING 100 5 { Root := EmptyHash, Volume := 7 }
    CbTag.markBorrowing OwnerTag.original

/-- A state holding `objSnap` live in its borrowing cache. -/
def sSnap : lendingExchangeState :=
  { lendingExchangeState.newStateExchanges 100 dataZero true with
    borrowingTrie := some [(5, encodeItemList { Root := EmptyHash, Volume := 7 })]
    borrowingStates := [(5, objSnap)] }

/-- `sSnap` together with its deep copy. -/
def wSnap : World :=
  { original := sSnap, copied := lendingExchangeState.deepCopy sSnap OwnerTag.original true }

/-- `wSnap` after mutating the copy's live borrowing object at rate 5. -/
def wSnapAfter : World := wSnap.mutateBorrowingVolume OwnerTag.copied 5 10

/-- A state with a memoized database error and all four tries loaded. -/
def sPoisoned : lendingExchangeState :=
  { lendingExchangeState.newStateExchanges 1 dataZero true with
    dbErr := some GoError.readFailure
    investingTrie := some []
    borrowingTrie := some []
    lendingTrie := some []
    liquidationTimeTrie := some [] }

/-- A clean state with all four tries loaded and nothing cached. -/
def sClean : lendingExchangeState :=
  { lendingExchangeState.newStateExchanges 1 dataZero true with
    investingTrie := some []
    borrowingTrie := some []
    lendingTrie := some []
    liquidationTimeTrie := some [] }

/-- The order used for the create-operation evaluations. -/
def orderA : LendingItem := { OrderID := 9, Quantity := 100 }

/-- `sClean` after `createLendingItem(dbNone, 9, orderA)`. -/
def sAfterCreateItem : lendingExchangeState :=
  lendingExchangeState.createLendingItem dbNone OwnerTag.original sClean 9 orderA

/-- `sClean` after `createLiquidationTime(dbNone, 7)`. -/
def sAfterCreateLiq : lendingExchangeState :=
  lendingExchangeState.createLiquidationTime dbNone OwnerTag.original sClean 7

/-- The investing trie content of `sRates`. -/
def ratesI : Trie :=
  [(7, encodeItemList { Root := EmptyHash, Volume := 1 }),
   (3, encodeItemList { Root := EmptyHash, Volume := 2 })]

/-- The borrowing trie content of `sRates`. -/
def ratesB : Trie :=
  [(7, encodeItemList { Root := EmptyHash, Volume := 1 }),
   (9, encodeItemList { Root := EmptyHash, Volume := 3 })]

/-- A state whose investing trie holds rates 7 and 3 and whose borrowing trie
holds rates 7 and 9, all with well-formed values. -/
def sRates : lendingExchangeState :=
  { lendingExchangeState.newStateExchanges 1 dataZero true with
    investingTrie := some ratesI
    borrowingTrie := some ratesB }

/-- A live borrowing order list at rate 1 used for the cache-hit case. -/
def objCacheHit : itemListState :=
  newItemListState Side.BORROWING 1 1 { Root := EmptyHash, Volume := 4 }
    CbTag.markBorrowing OwnerTag.original

/-- A live investing order list at rate 1 used for the cache-hit case. -/
def objCacheHitInv : itemListState :=
  newItemListState Side.INVESTING 1 1 { Root := EmptyHash, Volume := 4 }
    CbTag.markBorrowing OwnerTag.original

/-- A live liquidation-time list at time 1 used for the cache-hit case. -/
def objCacheHitLiq : liquidationTimeState :=
  newLiquidationTimeState 1 1 { Root := EmptyHash, Volume := 4 }
    CbTag.markInvesting OwnerTag.original

/-- A live lending item at id 1 used for the cache-hit case. -/
def objCacheHitItem : lendingItemState :=
  newLendinItemState 1 1 orderA CbTag.markLendingItem OwnerTag.original

/-- A trie with a malformed leaf at key 2 and a well-formed order list leaf at
key 3. -/
def tGetter : Trie := [(2, [99]), (3, encodeItemList { Root := EmptyHash, Volume := 4 })]

/-- A trie with a malformed leaf at key 2 and a well-formed lending item leaf
at key 3. -/
def tOrderGetter : Trie := [(2, [99]), (3, encodeLendingItem orderA)]

/-- A state exercising the getter branches: a cached object at key 1, a
malformed leaf at key 2 and a well-formed leaf at key 3 in every trie. -/
def sGetter : lendingExchangeState :=
  { lendingExchangeState.newStateExchanges 1 dataZero true with
    borrowingStates := [(1, objCacheHit)]
    investingStates := [(1, objCacheHitInv)]
    liquidationTimeStates := [(1, objCacheHitLiq)]
    lendingItemStates := [(1, objCacheHitItem)]
    borrowingTrie := some tGetter
    investingTrie := some tGetter
    liquidationTimeTrie := some tGetter
    lendingTrie := some tOrderGetter }

/-- `sClean` after a Mark notification and a nonce write. -/
def sFired : lendingExchangeState :=
  lendingExchangeState.setNonce 5 (lendingExchangeState.MarkBorrowingDirty 3 sClean)

/-- The investing trie content of `sRemove`. -/
def trieRemoveI : Trie :=
  [(5, encodeItemList { Root := EmptyHash, Volume := 2 }),
   (6, encodeItemList { Root := EmptyHash, Volume := 3 })]

/-- The borrowing trie content of `sRemove`. -/
def trieRemoveB : Trie :=
  [(5, encodeItemList { Root := EmptyHash, Volume := 2 })]

/-- A live investing order list at rate 5, used as the removal argument. -/
def objRemove : itemListState :=
  newItemListState Side.INVESTING 1 5 { Root := EmptyHash, Volume := 2 }
    CbTag.markInvesting OwnerTag.original

/-- A state with loaded tries, live caches and dirty markers, used to evaluate
the removal operations. -/
def sRemove : lendingExchangeState :=
  { lendingExchangeState.newStateExchanges 1 dataZero true with
    investingTrie := some trieRemoveI
    borrowingTrie := some trieRemoveB
    investingStates := [(5, objRemove)]
    investingStatesDirty := [5]
    borrowingStates := [(5, objSnap)]
    borrowingStatesDirty := [5, 6] }

/-- `sRemove` after removing the investing order list at rate 5. -/
def sRemovedI : lendingExchangeState :=
  { sRemove with investingTrie := some (trieDelete trieRemoveI 5) }

/-- The expected result of `createInvestingOrderList(dbNone, 5)` on `sClean`. -/
def sInvCreated : lendingExchangeState :=
  lendingExchangeState.fireOnDirty
    { sClean with
      investingStates := insertA sClean.investingStates 5
        (newItemListState Side.INVESTING sClean.lendingBook 5 itemListZero
          CbTag.markInvesting OwnerTag.original)
      investingStatesDirty := insertKey 5 sClean.investingStatesDirty
      investingTrie := some (trieUpdate [] 5 (encodeItemList itemListZero)) }

/-- The expected result of `createBorrowingOrderList(dbNone, 6)` on `sClean`. -/
def sBorCreated : lendingExchangeState :=
  lendingExchangeState.fireOnDirty
    { sClean with
      borrowingStates := insertA sClean.borrowingStates 6
        (newItemListState Side.BORROWING sClean.lendingBook 6 itemListZero
          CbTag.markBorrowing OwnerTag.original)
      borrowingStatesDirty := insertKey 6 sClean.borrowingStatesDirty
      borrowingTrie := some (trieUpdate [] 6 (encodeItemList itemListZero)) }

/-! Helper lemmas about the container operations and the shared epilogues. -/

theorem lookupA_insertA_self {V : Type} (l : List (Hash × V)) (k : Hash) (v : V) :
    lookupA (insertA l k v) k = some v := by
  induction l with
  | nil => simp [insertA, lookupA]
  | cons hd rest ih =>
    by_cases h : hd.1 = k
    · simp [insertA, h, lookupA]
    · cases hd with
      | mk k0 v0 => simp [insertA, h, lookupA] at *; simp [h, ih]

theorem lookupA_insertA_ne {V : Type} (l : List (Hash × V)) (k k2 : Hash) (v : V)
    (h : k2 ≠ k) : lookupA (insertA l k v) k2 = lookupA l k2 := by
  have hne : k ≠ k2 := fun hk => h hk.symm
  induction l with
  | nil => simp [insertA, lookupA, hne]
  | cons hd rest ih =>
    cases hd with
    | mk k0 v0 =>
      by_cases h0 : k0 = k
      · subst h0
        simp [insertA, lookupA, hne]
      · simp [insertA, h0, lookupA]
        by_cases h2 : k0 = k2
        · simp [h2]
        · simp [h2, ih]

theorem lookupA_trieDelete_self (t : Trie) (k : Hash) :
    lookupA (trieDelete t k) k = none := by
  induction t with
  | nil => simp [trieDelete, lookupA]
  | cons hd rest ih =>
    cases hd with
    | mk k0 v0 =>
      by_cases h : k0 = k
      · simp [trieDelete, h, ih]
      · simp [trieDelete, h, lookupA, ih]

theorem lookupA_trieDelete_ne (t : Trie) (k k2 : Hash) (h : k2 ≠ k) :
    lookupA (trieDelete t k) k2 = lookupA t k2 := by
  have hne : k ≠ k2 := fun hk => h hk.symm
  induction t with
  | nil => simp [trieDelete]
  | cons hd rest ih =>
    cases hd with
    | mk k0 v0 =>
      by_cases h0 : k0 = k
      · subst h0
        simp [trieDelete, lookupA, ih, hne]
      · simp [trieDelete, h0, lookupA]
        by_cases h2 : k0 = k2
        · simp [h2]
        · simp [h2, ih]

theorem mem_insertKey_self (k : Hash) (l : List Hash) : k ∈ insertKey k l := by
  unfold insertKey
  split
  · assumption
  · simp

namespace lendingExchangeState

@[simp] theorem setError_lendingBook (err : Option GoError) (s : lendingExchangeState) :
    (setError err s).lendingBook = s.lendingBook := by
  unfold setError; split <;> rfl

@[simp] theorem setError_data (err : Option GoError) (s : lendingExchangeState) :
    (setError err s).data = s.data := by
  unfold setError; split <;> rfl

@[simp] theorem setError_investingTrie (err : Option GoError) (s : lendingExchangeState) :
    (setError err s).investingTrie = s.investingTrie := by
  unfold setError; split <;> rfl

@[simp] theorem setError_borrowingTrie (err : Option GoError) (s : lendingExchangeState) :
    (setError err s).borrowingTrie = s.borrowingTrie := by
  unfold setError; split <;> rfl

@[simp] theorem setError_lendingTrie (err : Option GoError) (s : lendingExchangeState) :
    (setError err s).lendingTrie = s.lendingTrie := by
  unfold setError; split <;> rfl

@[simp] theorem setError_liquidationTimeTrie (err : Option GoError) (s : lendingExchangeState) :
    (setError err s).liquidationTimeTrie = s.liquidationTimeTrie := by
  unfold setError; split <;> rfl

@[simp] theorem setError_investingStates (err : Option GoError) (s : lendingExchangeState) :
    (setError err s).investingStates = s.investingStates := by
  unfold setError; split <;> rfl

@[simp] theorem setError_investingStatesDirty (err : Option GoError) (s : lendingExchangeState) :
    (setError err s).investingStatesDirty = s.investingStatesDirty := by
  unfold setError; split <;> rfl

@[simp] theorem setError_borrowingStates (err : Option GoError) (s : lendingExchangeState) :
    (setError err s).borrowingStates = s.borrowingStates := by
  unfold setError; split <;> rfl

@[simp] theorem setError_borrowingStatesDirty (err : Option GoError) (s : lendingExchangeState) :
    (setError err s).borrowingStatesDirty = s.borrowingStatesDirty := by
  unfold setError; split <;> rfl

@[simp] theorem setError_lendingItemStates (err : Option GoError) (s : lendingExchangeState) :
    (setError err s).lendingItemStates = s.lendingItemStates := by
  unfold setError; split <;> rfl

@[simp] theorem setError_lendingItemStatesDirty (err : Option GoError) (s : lendingExchangeState) :
    (setError err s).lendingItemStatesDirty = s.lendingItemStatesDirty := by
  unfold setError; split <;> rfl

@[simp] theorem setError_liquidationTimeStates (err : Option GoError) (s : lendingExchangeState) :
    (setError err s).liquidationTimeStates = s.liquidationTimeStates := by
  unfold setError; split <;> rfl

@[simp] theorem setError_liquidationTimestatesDirty (err : Option GoError) (s : lendingExchangeState) :
    (setError err s).liquidationTimestatesDirty = s.liquidationTimestatesDirty := by
  unfold setError; split <;> rfl

@[simp] theorem setError_onDirty (err : Option GoError) (s : lendingExchangeState) :
    (setError err s).onDirty = s.onDirty := by
  unfold setError; split <;> rfl

@[simp] theorem setError_onDirtyCalls (err : Option GoError) (s : lendingExchangeState) :
    (setError err s).onDirtyCalls = s.onDirtyCalls := by
  unfold setError; split <;> rfl

@[simp] theorem setError_commitCalls (err : Option GoError) (s : lendingExchangeState) :
    (setError err s).commitCalls = s.commitCalls := by
  unfold setError; split <;> rfl

/-- Memoizing a nil error never changes the state. -/
@[simp] theorem setError_none_id (s : lendingExchangeState) : setError none s = s := by
  unfold setError
  split
  · next h => cases s; simp at h; simp [h]
  · rfl

theorem setError_preserves_some (err : Option GoError) (s : lendingExchangeState)
    (e : GoError) (h : s.dbErr = some e) : (setError err s).dbErr = some e := by
  unfold setError; split <;> simp_all

theorem setError_some_clean (e : GoError) (s : lendingExchangeState)
    (h : s.dbErr = none) : (setError (some e) s).dbErr = some e := by
  unfold setError; split <;> simp_all

@[simp] theorem fireOnDirty_lendingBook (s : lendingExchangeState) :
    (fireOnDirty s).lendingBook = s.lendingBook := by
  unfold fireOnDirty; split <;> rfl

@[simp] theorem fireOnDirty_data (s : lendingExchangeState) :
    (fireOnDirty s).data = s.data := by
  unfold fireOnDirty; split <;> rfl

@[simp] theorem fireOnDirty_dbErr (s : lendingExchangeState) :
    (fireOnDirty s).dbErr = s.dbErr := by
  unfold fireOnDirty; split <;> rfl

@[simp] theorem fireOnDirty_investingTrie (s : lendingExchangeState) :
    (fireOnDirty s).investingTrie = s.investingTrie := by
  unfold fireOnDirty; split <;> rfl

@[simp] theorem fireOnDirty_borrowingTrie (s : lendingExchangeState) :
    (fireOnDirty s).borrowingTrie = s.borrowingTrie := by
  unfold fireOnDirty; split <;> rfl

@[simp] theorem fireOnDirty_lendingTrie (s : lendingExchangeState) :
    (fireOnDirty s).lendingTrie = s.lendingTrie := by
  unfold fireOnDirty; split <;> rfl

@[simp] theorem fireOnDirty_liquidationTimeTrie (s : lendingExchangeState) :
    (fireOnDirty s).liquidationTimeTrie = s.liquidationTimeTrie := by
  unfold fireOnDirty; split <;> rfl

@[simp] theorem fireOnDirty_investingStates (s : lendingExchangeState) :
    (fireOnDirty s).investingStates = s.investingStates := by
  unfold fireOnDirty; split <;> rfl

@[simp] theorem fireOnDirty_investingStatesDirty (s : lendingExchangeState) :
    (fireOnDirty s).investingStatesDirty = s.investingStatesDirty := by
  unfold fireOnDirty; split <;> rfl

@[simp] theorem fireOnDirty_borrowingStates (s : lendingExchangeState) :
    (fireOnDirty s).borrowingStates = s.borrowingStates := by
  unfold fireOnDirty; split <;> rfl

@[simp] theorem fireOnDirty_borrowingStatesDirty (s : lendingExchangeState) :
    (fireOnDirty s).borrowingStatesDirty = s.borrowingStatesDirty := by
  unfold fireOnDirty; split <;> rfl

@[simp] theorem fireOnDirty_lendingItemStates (s : lendingExchangeState) :
    (fireOnDirty s).lendingItemStates = s.lendingItemStates := by
  unfold fireOnDirty; split <;> rfl

@[simp] theorem fireOnDirty_lendingItemStatesDirty (s : lendingExchangeState) :
    (fireOnDirty s).lendingItemStatesDirty = s.lendingItemStatesDirty := by
  unfold fireOnDirty; split <;> rfl

@[simp] theorem fireOnDirty_liquidationTimeStates (s : lendingExchangeState) :
    (fireOnDirty s).liquidationTimeStates = s.liquidationTimeStates := by
  unfold fireOnDirty; split <;> rfl

@[simp] theorem fireOnDirty_liquidationTimestatesDirty (s : lendingExchangeState) :
    (fireOnDirty s).liquidationTimestatesDirty = s.liquidationTimestatesDirty := by
  unfold fireOnDirty; split <;> rfl

@[simp] theorem fireOnDirty_commitCalls (s : lendingExchangeState) :
    (fireOnDirty s).commitCalls = s.commitCalls := by
  unfold fireOnDirty; split <;> rfl

theorem fireOnDirty_onDirty (s : lendingExchangeState) :
    (fireOnDirty s).onDirty = false := by
  unfold fireOnDirty
  split <;> simp_all

theorem fireOnDirty_onDirtyCalls (s : lendingExchangeState) :
    (fireOnDirty s).onDirtyCalls = s.onDirtyCalls + (if s.onDirty then 1 else 0) := by
  unfold fireOnDirty
  split <;> simp_all

end lendingExchangeState

namespace lendingExchangeState

/-- Lazily opening the lending-item trie changes neither the persisted record
nor the commit counter. -/
theorem getLendingItemTrie_fields (db : DB) (s : lendingExchangeState) :
    ((getLendingItemTrie db s).1).data = s.data ∧
    ((getLendingItemTrie db s).1).commitCalls = s.commitCalls := by
  unfold getLendingItemTrie
  rcases htr : s.lendingTrie with _ | t
  · rcases hop : openStorageTrie db s.data.LendingItemRoot with e | t <;> simp
  · simp

/-- Lazily opening the investing trie changes neither the persisted record nor
the commit counter. -/
theorem getInvestingTrie_fields (db : DB) (s : lendingExchangeState) :
    ((getInvestingTrie db s).1).data = s.data ∧
    ((getInvestingTrie db s).1).commitCalls = s.commitCalls := by
  unfold getInvestingTrie
  rcases htr : s.investingTrie with _ | t
  · rcases hop : openStorageTrie db s.data.InvestingRoot with e | t <;> simp
  · simp

/-- Lazily opening the borrowing trie changes neither the persisted record nor
the commit counter. -/
theorem getBorrowingTrie_fields (db : DB) (s : lendingExchangeState) :
    ((getBorrowingTrie db s).1).data = s.data ∧
    ((getBorrowingTrie db s).1).commitCalls = s.commitCalls := by
  unfold getBorrowingTrie
  rcases htr : s.borrowingTrie with _ | t
  · rcases hop : openStorageTrie db s.data.BorrowingRoot with e | t <;> simp
  · simp

/-- Lazily opening the liquidation-time trie changes neither the persisted
record nor the commit counter. -/
theorem getLiquidationTimeTrie_fields (db : DB) (s : lendingExchangeState) :
    ((getLiquidationTimeTrie db s).1).data = s.data ∧
    ((getLiquidationTimeTrie db s).1).commitCalls = s.commitCalls := by
  unfold getLiquidationTimeTrie
  rcases htr : s.liquidationTimeTrie with _ | t
  · rcases hop : openStorageTrie db s.data.LiquidationTimeRoot with e | t <;> simp
  · simp

/-- The lending-item dirty flush changes neither the persisted record nor the
commit counter. -/
theorem updateLendingTimeTrie_fields (db : DB) (s : lendingExchangeState) :
    (updateLendingTimeTrie db s).data = s.data ∧
    (updateLendingTimeTrie db s).commitCalls = s.commitCalls := by
  have h := getLendingItemTrie_fields db s
  unfold updateLendingTimeTrie
  exact ⟨h.1, h.2⟩

/-- The investing dirty flush changes neither the persisted record nor the
commit counter. -/
theorem updateInvestingTrie_fields (db : DB) (s : lendingExchangeState) :
    (updateInvestingTrie db s).data = s.data ∧
    (updateInvestingTrie db s).commitCalls = s.commitCalls := by
  have h := getInvestingTrie_fields db s
  unfold updateInvestingTrie
  exact ⟨h.1, h.2⟩

/-- The borrowing dirty flush changes neither the persisted record nor the
commit counter. -/
theorem updateBorrowingTrie_fields (db : DB) (s : lendingExchangeState) :
    (updateBorrowingTrie db s).data = s.data ∧
    (updateBorrowingTrie db s).commitCalls = s.commitCalls := by
  have h := getBorrowingTrie_fields db s
  unfold updateBorrowingTrie
  exact ⟨h.1, h.2⟩

/-- The liquidation-time dirty flush changes neither the persisted record nor
the commit counter. -/
theorem updateLiquidationTimeTrie_fields (db : DB) (s : lendingExchangeState) :
    (updateLiquidationTimeTrie db s).data = s.data ∧
    (updateLiquidationTimeTrie db s).commitCalls = s.commitCalls := by
  have h := getLiquidationTimeTrie_fields db s
  unfold updateLiquidationTimeTrie
  exact ⟨h.1, h.2⟩

end lendingExchangeState

/-- A poisoned error slot survives any further `setError` calls. -/
theorem runSetErrors_poisoned (errs : List (Option GoError))
    (s : lendingExchangeState) (e : GoError) (h : s.dbErr = some e) :
    (runSetErrors errs s).dbErr = some e := by
  induction errs generalizing s with
  | nil => simpa [runSetErrors]
  | cons err rest ih =>
    simp only [runSetErrors, List.foldl_cons] at *
    exact ih _ (lendingExchangeState.setError_preserves_some err s e h)

/-- Starting from a clean error slot, folding `setError` over any sequence of
error arguments memoizes exactly the first non-nil one. -/
theorem runSetErrors_clean (errs : List (Option GoError))
    (s : lendingExchangeState) (h : s.dbErr = none) :
    (runSetErrors errs s).dbErr = firstSome errs := by
  induction errs generalizing s with
  | nil => simpa [runSetErrors, firstSome]
  | cons err rest ih =>
    cases err with
    | none =>
      simp only [runSetErrors, List.foldl_cons, lendingExchangeState.setError_none_id,
        firstSome]
      exact ih s h
    | some e =>
      simp only [runSetErrors, List.foldl_cons, firstSome]
      exact runSetErrors_poisoned rest _ e
        (lendingExchangeState.setError_some_clean e s h)

/-- The left-most query answers nothing exactly on the empty trie. -/
theorem bestLeftKV_eq_none_iff (t : Trie) : bestLeftKV t = none ↔ t = [] := by
  cases t with
  | nil => simp [bestLeftKV]
  | cons kv rest =>
    cases h : bestLeftKV rest with
    | none => simp [bestLeftKV, h]
    | some kv2 =>
      simp only [bestLeftKV, h]
      by_cases hle : kv.1 ≤ kv2.1
      · rw [if_pos hle]; simp
      · rw [if_neg hle]; simp

/-- The right-most query answers nothing exactly on the empty trie. -/
theorem bestRightKV_eq_none_iff (t : Trie) : bestRightKV t = none ↔ t = [] := by
  cases t with
  | nil => simp [bestRightKV]
  | cons kv rest =>
    cases h : bestRightKV rest with
    | none => simp [bestRightKV, h]
    | some kv2 =>
      simp only [bestRightKV, h]
      by_cases hle : kv2.1 ≤ kv.1
      · rw [if_pos hle]; simp
      · rw [if_neg hle]; simp

/-- The left-most query answers a binding of the trie. -/
theorem bestLeftKV_mem (t : Trie) : ∀ kv : Hash × Bytes,
    bestLeftKV t = some kv → kv ∈ t := by
  induction t with
  | nil => intro kv h; simp [bestLeftKV] at h
  | cons hd rest ih =>
    intro kv h
    cases hb : bestLeftKV rest with
    | none =>
      simp only [bestLeftKV, hb] at h
      injection h with h2
      simp [h2]
    | some kvb =>
      simp only [bestLeftKV, hb] at h
      by_cases hle : hd.1 ≤ kvb.1
      · rw [if_pos hle] at h
        injection h with h2
        simp [h2]
      · rw [if_neg hle] at h
        injection h with h2
        exact List.mem_cons_of_mem _ (ih kv (h2 ▸ hb))

/-- The right-most query answers a binding of the trie. -/
theorem bestRightKV_mem (t : Trie) : ∀ kv : Hash × Bytes,
    bestRightKV t = some kv → kv ∈ t := by
  induction t with
  | nil => intro kv h; simp [bestRightKV] at h
  | cons hd rest ih =>
    intro kv h
    cases hb : bestRightKV rest with
    | none =>
      simp only [bestRightKV, hb] at h
      injection h with h2
      simp [h2]
    | some kvb =>
      simp only [bestRightKV, hb] at h
      by_cases hle : kvb.1 ≤ hd.1
      · rw [if_pos hle] at h
        injection h with h2
        simp [h2]
      · rw [if_neg hle] at h
        injection h with h2
        exact List.mem_cons_of_mem _ (ih kv (h2 ▸ hb))

/-- The left-most query answers a smallest key. -/
theorem bestLeftKV_le (t : Trie) : ∀ kv : Hash × Bytes,
    bestLeftKV t = some kv → ∀ kv2 ∈ t, kv.1 ≤ kv2.1 := by
  induction t with
  | nil => intro kv h; simp [bestLeftKV] at h
  | cons hd rest ih =>
    intro kv h kv2 hm
    cases hb : bestLeftKV rest with
    | none =>
      simp only [bestLeftKV, hb] at h
      injection h with h2
      have hrest : rest = [] := (bestLeftKV_eq_none_iff rest).mp hb
      subst hrest
      subst h2
      rcases List.mem_cons.mp hm with hm | hm
      · subst hm; exact Nat.le_refl _
      · simp at hm
    | some kvb =>
      simp only [bestLeftKV, hb] at h
      by_cases hle : hd.1 ≤ kvb.1
      · rw [if_pos hle] at h
        injection h with h2
        subst h2
        rcases List.mem_cons.mp hm with hm | hm
        · subst hm; exact Nat.le_refl _
        · exact Nat.le_trans hle (ih kvb hb kv2 hm)
      · rw [if_neg hle] at h
        injection h with h2
        subst h2
        rcases List.mem_cons.mp hm with hm | hm
        · subst hm; exact Nat.le_of_lt (Nat.lt_of_not_le hle)
        · exact ih kvb hb kv2 hm

/-- The right-most query answers a largest key. -/
theorem bestRightKV_ge (t : Trie) : ∀ kv : Hash × Bytes,
    bestRightKV t = some kv → ∀ kv2 ∈ t, kv2.1 ≤ kv.1 := by
  induction t with
  | nil => intro kv h; simp [bestRightKV] at h
  | cons hd rest ih =>
    intro kv h kv2 hm
    cases hb : bestRightKV rest with
    | none =>
      simp only [bestRightKV, hb] at h
      injection h with h2
      have hrest : rest = [] := (bestRightKV_eq_none_iff rest).mp hb
      subst hrest
      subst h2
      rcases List.mem_cons.mp hm with hm | hm
      · subst hm; exact Nat.le_refl _
      · simp at hm
    | some kvb =>
      simp only [bestRightKV, hb] at h
      by_cases hle : kvb.1 ≤ hd.1
      · rw [if_pos hle] at h
        injection h with h2
        subst h2
        rcases List.mem_cons.mp hm with hm | hm
        · subst hm; exact Nat.le_refl _
        · exact Nat.le_trans (ih kvb hb kv2 hm) hle
      · rw [if_neg hle] at h
        injection h with h2
        subst h2
        rcases List.mem_cons.mp hm with hm | hm
        · subst hm; exact Nat.le_of_lt (Nat.lt_of_not_le hle)
        · exact ih kvb hb kv2 hm

open lendingExchangeState in
/-- One successful mutating operation fires the owner-level callback exactly
when the callback is still set and the operation reaches the shared
fire-and-clear epilogue, and the callback is cleared exactly then. -/
theorem applyOp_onDirty_spec (db : DB) (op : MutOp) (s s1 : lendingExchangeState)
    (h : applyOp db op s = some s1) :
    s1.onDirtyCalls = s.onDirtyCalls + (if s.onDirty && opFires op then 1 else 0) ∧
    s1.onDirty = (s.onDirty && !opFires op) := by
  cases op with
  | setNonceOp n =>
    simp only [applyOp, Option.some.injEq] at h
    subst h
    exact ⟨by simp [setNonce, fireOnDirty_onDirtyCalls, opFires],
           by simp [setNonce, fireOnDirty_onDirty, opFires]⟩
  | createInvestingOp p =>
    simp only [applyOp] at h
    cases hti : s.investingTrie with
    | none => simp [createInvestingOrderList, encodeItemListState, hti] at h
    | some t =>
      simp only [createInvestingOrderList, encodeItemListState, hti,
        Option.some.injEq] at h
      subst h
      exact ⟨by simp [fireOnDirty_onDirtyCalls, opFires],
             by simp [fireOnDirty_onDirty, opFires]⟩
  | createBorrowingOp p =>
    simp only [applyOp] at h
    cases hti : s.borrowingTrie with
    | none => simp [createBorrowingOrderList, encodeItemListState, hti] at h
    | some t =>
      simp only [createBorrowingOrderList, encodeItemListState, hti,
        Option.some.injEq] at h
      subst h
      exact ⟨by simp [fireOnDirty_onDirtyCalls, opFires],
             by simp [fireOnDirty_onDirty, opFires]⟩
  | createLendingItemOp orderId order =>
    simp only [applyOp, Option.some.injEq] at h
    subst h
    exact ⟨by simp [createLendingItem, fireOnDirty_onDirtyCalls, opFires],
           by simp [createLendingItem, fireOnDirty_onDirty, opFires]⟩
  | createLiquidationTimeOp t =>
    simp only [applyOp, Option.some.injEq] at h
    subst h
    exact ⟨by simp [createLiquidationTime, opFires],
           by simp [createLiquidationTime, opFires]⟩
  | markInvestingOp p =>
    simp only [applyOp, Option.some.injEq] at h
    subst h
    exact ⟨by simp [MarkInvestingDirty, fireOnDirty_onDirtyCalls, opFires],
           by simp [MarkInvestingDirty, fireOnDirty_onDirty, opFires]⟩
  | markBorrowingOp p =>
    simp only [applyOp, Option.some.injEq] at h
    subst h
    exact ⟨by simp [MarkBorrowingDirty, fireOnDirty_onDirtyCalls, opFires],
           by simp [MarkBorrowingDirty, fireOnDirty_onDirty, opFires]⟩
  | markLendingItemOp p =>
    simp only [applyOp, Option.some.injEq] at h
    subst h
    exact ⟨by simp [MarkLendingItemDirty, fireOnDirty_onDirtyCalls, opFires],
           by simp [MarkLendingItemDirty, fireOnDirty_onDirty, opFires]⟩
  | markLiquidationTimeOp p =>
    simp only [applyOp, Option.some.injEq] at h
    subst h
    exact ⟨by simp [MarkLiquidationTimeDirty, fireOnDirty_onDirtyCalls, opFires],
           by simp [MarkLiquidationTimeDirty, fireOnDirty_onDirty, opFires]⟩

/-- Along any successful sequence of mutating operations, the owner-level
callback fires exactly once when it was set and some operation reaches the
epilogue, and never again after it is cleared. -/
theorem applySeq_onDirty_spec (db : DB) (ops : List MutOp) :
    ∀ s s1 : lendingExchangeState, applySeq db ops s = some s1 →
    s1.onDirtyCalls = s.onDirtyCalls + (if s.onDirty && ops.any opFires then 1 else 0) ∧
    s1.onDirty = (s.onDirty && !(ops.any opFires)) := by
  induction ops with
  | nil =>
    intro s s1 h
    simp only [applySeq, Option.some.injEq] at h
    subst h
    simp
  | cons op rest ih =>
    intro s s1 h
    simp only [applySeq] at h
    cases hmid : applyOp db op s with
    | none => rw [hmid] at h; exact absurd h (by simp)
    | some smid =>
      rw [hmid] at h
      have hop := applyOp_onDirty_spec db op s smid hmid
      have hrest := ih smid s1 h
      rcases hop with ⟨hc1, hd1⟩
      rcases hrest with ⟨hc2, hd2⟩
      constructor
      · rw [hc2, hc1, hd1]
        cases hsd : s.onDirty <;> cases hf : opFires op <;>
          simp [List.any_cons, hf] <;> omega
      · rw [hd2, hd1]
        cases hsd : s.onDirty <;> cases hf : opFires op <;>
          simp [List.any_cons, hf]

/-! Claim theorems. -/

/-- C1: evaluating the source at the failing input.  Starting from a state
whose investing trie holds rate 5 and whose liquidation-time trie holds time 9,
mutating the object returned by `getInvestingOrderList(5)` places the marker in
the BORROWING dirty set (the object is wrapped with `MarkBorrowingDirty`), and
mutating the object returned by `getLiquidationTimeOrderList(9)` places the
marker in the INVESTING dirty set (wrapped with `MarkInvestingDirty`); the
investing dirty set never receives 5 and the liquidation-time dirty set stays
empty, contradicting the claim that each collection's mutation reaches its own
dirty set. -/
theorem claim_C1_cross_wired_dirty_marking :
    sCross.investingStatesDirty = [] ∧
    sCross.borrowingStatesDirty = [] ∧
    sCross.liquidationTimestatesDirty = [] ∧
    sCrossAfter.borrowingStatesDirty = [5] ∧
    sCrossAfter.investingStatesDirty = [9] ∧
    sCrossAfter.liquidationTimestatesDirty = [] := by decide

/-- C2: evaluating the source at the failing input.  `deepCopy` hands every
copied sub-state object a callback bound to the ORIGINAL (`self.Mark*Dirty`),
so mutating the copy's live borrowing object at rate 5 marks the original's
borrowing dirty set and consumes the original's onDirty callback, while the
copy's own dirty set stays empty; the original's live cache keeps its old
object while the copy's cache shows the mutation, contradicting the claim that
mutating the copy never changes the original's live-object state. -/
theorem claim_C2_deepCopy_mutation_leaks_to_original :
    wSnap.original.borrowingStatesDirty = [] ∧
    wSnapAfter.original.borrowingStatesDirty = [5] ∧
    wSnapAfter.original.onDirtyCalls = 1 ∧
    wSnapAfter.original.onDirty = false ∧
    wSnapAfter.copied.borrowingStatesDirty = [] ∧
    wSnapAfter.original.borrowingStates = wSnap.original.borrowingStates ∧
    lookupA wSnapAfter.copied.borrowingStates 5 ≠
      lookupA wSnap.copied.borrowingStates 5 := by decide

/-- C8: a `lendingExchangeState` reports itself empty exactly when its nonce is
zero and both the investing and borrowing roots equal the canonical empty-trie
hash; the lending-item and liquidation-time roots play no role (replacing them
by anything leaves the test unchanged). -/
theorem claim_C8_empty_iff (s : lendingExchangeState) (x y : Hash) :
    (lendingExchangeState.empty s = true ↔
      s.data.Nonce = 0 ∧ s.data.InvestingRoot = EmptyRoot ∧
        s.data.BorrowingRoot = EmptyRoot) ∧
    lendingExchangeState.empty
        { s with data :=
            { s.data with LendingItemRoot := x, LiquidationTimeRoot := y } } =
      lendingExchangeState.empty s := by
  constructor
  · simp [lendingExchangeState.empty, common_EmptyHash, and_assoc]
  · rfl

open lendingExchangeState in
/-- C10: `createLendingItem(orderId, order)` caches and dirty-marks the new
object under the 256-bit big-endian hash of `order.OrderID`, not under the
`orderId` argument: the cache entry at any other `orderId` is untouched, and a
subsequent `getLendingItem(orderId)` finds the created object in the cache
exactly when `orderId` equals the derived key. -/
theorem claim_C10_createLendingItem_derived_key (db : DB) (me : OwnerTag)
    (s : lendingExchangeState) (orderId : Hash) (order : LendingItem) :
    lookupA (createLendingItem db me s orderId order).lendingItemStates
        (common_BigToHash order.OrderID) =
      some (newLendinItemState s.lendingBook orderId order CbTag.markLendingItem me) ∧
    common_BigToHash order.OrderID ∈
      (createLendingItem db me s orderId order).lendingItemStatesDirty ∧
    (orderId ≠ common_BigToHash order.OrderID →
      lookupA (createLendingItem db me s orderId order).lendingItemStates orderId =
        lookupA s.lendingItemStates orderId) ∧
    (orderId = common_BigToHash order.OrderID →
      getLendingItem db me (createLendingItem db me s orderId order) orderId =
        (createLendingItem db me s orderId order,
          some (newLendinItemState s.lendingBook orderId order CbTag.markLendingItem me))) := by
  refine ⟨?_, ?_, ?_, ?_⟩
  · simp [createLendingItem, lookupA_insertA_self]
  · simp [createLendingItem, mem_insertKey_self]
  · intro hne
    simp [createLendingItem, lookupA_insertA_ne _ _ _ _ hne]
  · intro heq
    have hl : lookupA (createLendingItem db me s orderId order).lendingItemStates
        orderId =
        some (newLendinItemState s.lendingBook orderId order CbTag.markLendingItem me) := by
      rw [heq]
      simp [createLendingItem, lookupA_insertA_self]
    simp [getLendingItem, hl]

/-- C10 witness: concrete evaluations of the theorem at `sClean` with order id
9 — creating with matching argument 9 is found by `getLendingItem 9`, while
creating with argument 4 leaves the cache entry at 4 untouched. -/
theorem claim_C10_witness :
    lookupA sAfterCreateItem.lendingItemStates 9 =
      some (newLendinItemState 1 9 orderA CbTag.markLendingItem OwnerTag.original) ∧
    (9 : Hash) ∈ sAfterCreateItem.lendingItemStatesDirty ∧
    lookupA (lendingExchangeState.createLendingItem dbNone OwnerTag.original
        sClean 4 orderA).lendingItemStates 4 =
      lookupA sClean.lendingItemStates 4 ∧
    lendingExchangeState.getLendingItem dbNone OwnerTag.original sAfterCreateItem 9 =
      (sAfterCreateItem,
        some (newLendinItemState 1 9 orderA CbTag.markLendingItem OwnerTag.original)) := by
  have h9 := claim_C10_createLendingItem_derived_key dbNone OwnerTag.original
    sClean 9 orderA
  have h4 := claim_C10_createLendingItem_derived_key dbNone OwnerTag.original
    sClean 4 orderA
  refine ⟨?_, ?_, ?_, ?_⟩
  · simpa [sAfterCreateItem, common_BigToHash, orderA, sClean,
      lendingExchangeState.newStateExchanges] using h9.1
  · simpa [sAfterCreateItem, common_BigToHash, orderA] using h9.2.1
  · simpa [common_BigToHash, orderA] using h4.2.2.1 (by decide)
  · simpa [sAfterCreateItem, common_BigToHash, orderA, sClean,
      lendingExchangeState.newStateExchanges] using h9.2.2.2 (by decide)

open lendingExchangeState in
/-- C9: `removeInvestingOrderList` / `removeBorrowingOrderList` delete exactly
the leaf at the argument's price from their own trie and leave every in-memory
structure — both live caches, all four dirty sets, the persisted record and the
memoized error — unchanged. -/
theorem claim_C9_remove_frame (db : DB) (s : lendingExchangeState)
    (o : itemListState) (t u : Trie) (hI : s.investingTrie = some t)
    (hB : s.borrowingTrie = some u) :
    removeInvestingOrderList db s o =
      some { s with investingTrie := some (trieDelete t o.price) } ∧
    removeBorrowingOrderList db s o =
      some { s with borrowingTrie := some (trieDelete u o.price) } ∧
    lookupA (trieDelete t o.price) o.price = none ∧
    lookupA (trieDelete u o.price) o.price = none ∧
    (∀ k, k ≠ o.price → lookupA (trieDelete t o.price) k = lookupA t k) ∧
    (∀ k, k ≠ o.price → lookupA (trieDelete u o.price) k = lookupA u k) ∧
    (∀ s2, removeInvestingOrderList db s o = some s2 →
      s2.investingStates = s.investingStates ∧
      s2.investingStatesDirty = s.investingStatesDirty ∧
      s2.borrowingStates = s.borrowingStates ∧
      s2.borrowingStatesDirty = s.borrowingStatesDirty ∧
      s2.lendingItemStates = s.lendingItemStates ∧
      s2.lendingItemStatesDirty = s.lendingItemStatesDirty ∧
      s2.liquidationTimeStates = s.liquidationTimeStates ∧
      s2.liquidationTimestatesDirty = s.liquidationTimestatesDirty ∧
      s2.data = s.data ∧ s2.dbErr = s.dbErr ∧
      s2.borrowingTrie = s.borrowingTrie) ∧
    (∀ s2, removeBorrowingOrderList db s o = some s2 →
      s2.investingStates = s.investingStates ∧
      s2.investingStatesDirty = s.investingStatesDirty ∧
      s2.borrowingStates = s.borrowingStates ∧
      s2.borrowingStatesDirty = s.borrowingStatesDirty ∧
      s2.lendingItemStates = s.lendingItemStates ∧
      s2.lendingItemStatesDirty = s.lendingItemStatesDirty ∧
      s2.liquidationTimeStates = s.liquidationTimeStates ∧
      s2.liquidationTimestatesDirty = s.liquidationTimestatesDirty ∧
      s2.data = s.data ∧ s2.dbErr = s.dbErr ∧
      s2.investingTrie = s.investingTrie) := by
  have h1 : removeInvestingOrderList db s o =
      some { s with investingTrie := some (trieDelete t o.price) } := by
    simp [removeInvestingOrderList, hI]
  have h2 : removeBorrowingOrderList db s o =
      some { s with borrowingTrie := some (trieDelete u o.price) } := by
    simp [removeBorrowingOrderList, hB]
  refine ⟨h1, h2, lookupA_trieDelete_self t o.price, lookupA_trieDelete_self u o.price,
    fun k hk => lookupA_trieDelete_ne t o.price k hk,
    fun k hk => lookupA_trieDelete_ne u o.price k hk, ?_, ?_⟩
  · intro s2 h
    rw [h1] at h
    injection h with h
    subst h
    exact ⟨rfl, rfl, rfl, rfl, rfl, rfl, rfl, rfl, rfl, rfl, rfl⟩
  · intro s2 h
    rw [h2] at h
    injection h with h
    subst h
    exact ⟨rfl, rfl, rfl, rfl, rfl, rfl, rfl, rfl, rfl, rfl, rfl⟩

/-- C9 witness: the removal theorem evaluated on a state with live caches and
dirty markers at the removed rate — the leaf at rate 5 is gone, rate 6
survives, and the caches and dirty sets are untouched. -/
theorem claim_C9_witness :
    lendingExchangeState.removeInvestingOrderList dbNone sRemove objRemove =
      some sRemovedI ∧
    sRemovedI.investingStates = sRemove.investingStates ∧
    sRemovedI.investingStatesDirty = sRemove.investingStatesDirty ∧
    lookupA (trieDelete trieRemoveI 5) 6 = lookupA trieRemoveI 6 ∧
    lookupA (trieDelete trieRemoveI 5) 5 = none := by
  have h := claim_C9_remove_frame dbNone sRemove objRemove trieRemoveI trieRemoveB
    rfl rfl
  refine ⟨?_, ?_, ?_, ?_, ?_⟩
  · simpa [sRemovedI, objRemove, newItemListState] using h.1
  · exact (h.2.2.2.2.2.2.1 sRemovedI (by
      simpa [sRemovedI, objRemove, newItemListState] using h.1)).1
  · exact (h.2.2.2.2.2.2.1 sRemovedI (by
      simpa [sRemovedI, objRemove, newItemListState] using h.1)).2.1
  · simpa [objRemove, newItemListState] using h.2.2.2.2.1 6 (by decide)
  · simpa [objRemove, newItemListState] using h.2.2.1

open lendingExchangeState in
/-- C3: each Commit* operation, when a database error is memoized by the end of
its dirty flush, returns exactly the flushed state paired with that error —
so the underlying trie commit is not invoked (the commit counter of the result
equals the input's, since the flush preserves it) and the corresponding root
field is unchanged (the flush preserves the whole persisted record); and the
memoized error is always the first non-nil error ever passed to `setError`. -/
theorem claim_C3_commit_fail_closed (db : DB) (s : lendingExchangeState)
    (e : GoError) :
    ((updateLendingTimeTrie db s).dbErr = some e →
      CommitLendingItemTrie db s = (updateLendingTimeTrie db s, some e)) ∧
    ((updateInvestingTrie db s).dbErr = some e →
      CommitInvestingTrie db s = (updateInvestingTrie db s, some e)) ∧
    ((updateBorrowingTrie db s).dbErr = some e →
      CommitBorrowingTrie db s = (updateBorrowingTrie db s, some e)) ∧
    ((updateLiquidationTimeTrie db s).dbErr = some e →
      CommitLiquidationTimeTrie db s = (updateLiquidationTimeTrie db s, some e)) ∧
    (updateLendingTimeTrie db s).data = s.data ∧
    (updateInvestingTrie db s).data = s.data ∧
    (updateBorrowingTrie db s).data = s.data ∧
    (updateLiquidationTimeTrie db s).data = s.data ∧
    (updateLendingTimeTrie db s).commitCalls = s.commitCalls ∧
    (updateInvestingTrie db s).commitCalls = s.commitCalls ∧
    (updateBorrowingTrie db s).commitCalls = s.commitCalls ∧
    (updateLiquidationTimeTrie db s).commitCalls = s.commitCalls ∧
    (∀ (errs : List (Option GoError)) (s0 : lendingExchangeState),
      s0.dbErr = none → (runSetErrors errs s0).dbErr = firstSome errs) ∧
    (∀ (errs : List (Option GoError)) (s0 : lendingExchangeState) (e0 : GoError),
      s0.dbErr = some e0 → (runSetErrors errs s0).dbErr = some e0) := by
  refine ⟨?_, ?_, ?_, ?_,
    (updateLendingTimeTrie_fields db s).1, (updateInvestingTrie_fields db s).1,
    (updateBorrowingTrie_fields db s).1, (updateLiquidationTimeTrie_fields db s).1,
    (updateLendingTimeTrie_fields db s).2, (updateInvestingTrie_fields db s).2,
    (updateBorrowingTrie_fields db s).2, (updateLiquidationTimeTrie_fields db s).2,
    fun errs s0 h0 => runSetErrors_clean errs s0 h0,
    fun errs s0 e0 h0 => runSetErrors_poisoned errs s0 e0 h0⟩
  · intro h
    simp [CommitLendingItemTrie, h]
  · intro h
    simp [CommitInvestingTrie, h]
  · intro h
    simp [CommitBorrowingTrie, h]
  · intro h
    simp [CommitLiquidationTimeTrie, h]

/-- C3 witness: the fail-closed theorem evaluated on a state with a memoized
read failure — every commit returns it without touching roots or the commit
counter, and `setError` folded over nil, a read failure and a write failure
memoizes the read failure. -/
theorem claim_C3_witness :
    (lendingExchangeState.updateLendingTimeTrie dbNone sPoisoned).dbErr =
      some GoError.readFailure ∧
    lendingExchangeState.CommitLendingItemTrie dbNone sPoisoned =
      (lendingExchangeState.updateLendingTimeTrie dbNone sPoisoned,
        some GoError.readFailure) ∧
    lendingExchangeState.CommitInvestingTrie dbNone sPoisoned =
      (lendingExchangeState.updateInvestingTrie dbNone sPoisoned,
        some GoError.readFailure) ∧
    (lendingExchangeState.CommitInvestingTrie dbNone sPoisoned).1.commitCalls =
      sPoisoned.commitCalls ∧
    (lendingExchangeState.CommitInvestingTrie dbNone sPoisoned).1.data.InvestingRoot =
      sPoisoned.data.InvestingRoot ∧
    (runSetErrors [none, some GoError.readFailure, some GoError.writeFailure]
        sClean).dbErr = some GoError.readFailure := by
  obtain ⟨c1, c2, c3, c4, d1, d2, d3, d4, m1, m2, m3, m4, r1, r2⟩ :=
    claim_C3_commit_fail_closed dbNone sPoisoned GoError.readFailure
  refine ⟨by decide, c1 (by decide), c2 (by decide), ?_, ?_, ?_⟩
  · rw [c2 (by decide)]
    exact m2
  · rw [c2 (by decide)]
    rw [d2]
  · simpa [firstSome] using r1 [none, some GoError.readFailure,
      some GoError.writeFailure] sClean (by decide)

open lendingExchangeState in
/-- C5: over a loaded investing trie whose leaves all decode and whose keys are
256-bit values, `getBestInvestingRate` answers the smallest key present (it is
a key of the trie and a lower bound of all keys), and dually
`getBestBorrowingRate` answers the largest key of the borrowing trie; on an
empty trie each answers the empty-hash sentinel. -/
theorem claim_C5_extremal_rates (db : DB) (s : lendingExchangeState)
    (t u : Trie) (hI : s.investingTrie = some t) (hB : s.borrowingTrie = some u)
    (hwfI : ∀ kv ∈ t, (decodeItemList kv.2).isSome = true)
    (hwfB : ∀ kv ∈ u, (decodeItemList kv.2).isSome = true)
    (hkI : ∀ kv ∈ t, kv.1 < 2 ^ 256) (hkB : ∀ kv ∈ u, kv.1 < 2 ^ 256) :
    (t = [] → (getBestInvestingRate db s).2 = EmptyHash) ∧
    (t ≠ [] → (∃ v, ((getBestInvestingRate db s).2, v) ∈ t) ∧
      ∀ kv ∈ t, (getBestInvestingRate db s).2 ≤ kv.1) ∧
    (u = [] → (getBestBorrowingRate db s).2 = EmptyHash) ∧
    (u ≠ [] → (∃ v, ((getBestBorrowingRate db s).2, v) ∈ u) ∧
      ∀ kv ∈ u, kv.1 ≤ (getBestBorrowingRate db s).2) := by
  have hgI : getInvestingTrie db s = (s, t) := by
    simp [getInvestingTrie, hI]
  have hgB : getBorrowingTrie db s = (s, u) := by
    simp [getBorrowingTrie, hB]
  refine ⟨?_, ?_, ?_, ?_⟩
  · intro ht
    subst ht
    simp [getBestInvestingRate, hgI, bestLeftKV]
  · intro ht
    cases hb : bestLeftKV t with
    | none => exact absurd ((bestLeftKV_eq_none_iff t).mp hb) ht
    | some kv0 =>
      have hmem := bestLeftKV_mem t kv0 hb
      obtain ⟨d, hd⟩ := Option.isSome_iff_exists.mp (hwfI kv0 hmem)
      have hres : (getBestInvestingRate db s).2 = kv0.1 := by
        simp only [getBestInvestingRate, hgI, hb, hd, common_BytesToHash]
        exact Nat.mod_eq_of_lt (hkI kv0 hmem)
      constructor
      · refine ⟨kv0.2, ?_⟩
        rw [hres]
        simpa using hmem
      · intro kv2 hm2
        rw [hres]
        exact bestLeftKV_le t kv0 hb kv2 hm2
  · intro hu
    subst hu
    simp [getBestBorrowingRate, hgB, bestRightKV]
  · intro hu
    cases hb : bestRightKV u with
    | none => exact absurd ((bestRightKV_eq_none_iff u).mp hb) hu
    | some kv0 =>
      have hmem := bestRightKV_mem u kv0 hb
      obtain ⟨d, hd⟩ := Option.isSome_iff_exists.mp (hwfB kv0 hmem)
      have hres : (getBestBorrowingRate db s).2 = kv0.1 := by
        simp only [getBestBorrowingRate, hgB, hb, hd, common_BytesToHash]
        exact Nat.mod_eq_of_lt (hkB kv0 hmem)
      constructor
      · refine ⟨kv0.2, ?_⟩
        rw [hres]
        simpa using hmem
      · intro kv2 hm2
        rw [hres]
        exact bestRightKV_ge u kv0 hb kv2 hm2

/-- C5 witness: the extremal theorem evaluated on a state with investing rates
7 and 3 and borrowing rates 7 and 9 (the answers are bounded by the inserted
extremes), and on a state with two empty tries (the answers are the
sentinel). -/
theorem claim_C5_witness :
    (lendingExchangeState.getBestInvestingRate dbNone sRates).2 ≤ 3 ∧
    7 ≤ (lendingExchangeState.getBestBorrowingRate dbNone sRates).2 ∧
    (lendingExchangeState.getBestInvestingRate dbNone sClean).2 = EmptyHash ∧
    (lendingExchangeState.getBestBorrowingRate dbNone sClean).2 = EmptyHash := by
  have h := claim_C5_extremal_rates dbNone sRates ratesI ratesB rfl rfl
    (by decide) (by decide) (by decide) (by decide)
  have h0 := claim_C5_extremal_rates dbNone sClean [] [] rfl rfl
    (by simp) (by simp) (by simp) (by simp)
  refine ⟨?_, ?_, h0.1 rfl, h0.2.2.1 rfl⟩
  · exact (h.2.1 (by decide)).2
      (3, encodeItemList { Root := EmptyHash, Volume := 2 }) (by decide)
  · exact (h.2.2.2 (by decide)).2
      (7, encodeItemList { Root := EmptyHash, Volume := 1 }) (by decide)

open lendingExchangeState in
/-- C7: for each of the four state getters — a live cached object is returned
unchanged (with the state untouched); a trie lookup yielding no bytes, or
bytes that fail to decode, returns the nil sentinel without raising an error
(the state is returned unchanged, the decode failure only logged); otherwise
the decoded object is inserted into the live cache and returned. -/
theorem claim_C7_getter_absence_semantics (db : DB) (me : OwnerTag)
    (s : lendingExchangeState) :
    (∀ k ob, lookupA s.borrowingStates k = some ob →
      getBorrowingOrderList db me s k = (s, some ob)) ∧
    (∀ k t, s.borrowingTrie = some t → lookupA s.borrowingStates k = none →
      lookupA t k = none → getBorrowingOrderList db me s k = (s, none)) ∧
    (∀ k t enc, s.borrowingTrie = some t → lookupA s.borrowingStates k = none →
      lookupA t k = some enc → decodeItemList enc = none →
      getBorrowingOrderList db me s k = (s, none)) ∧
    (∀ k t enc d, s.borrowingTrie = some t → lookupA s.borrowingStates k = none →
      lookupA t k = some enc → decodeItemList enc = some d →
      getBorrowingOrderList db me s k =
        ({ s with
            borrowingStates :=
              insertA s.borrowingStates k
                (newItemListState Side.BORROWING s.lendingBook k d CbTag.markBorrowing me) },
          some (newItemListState Side.BORROWING s.lendingBook k d CbTag.markBorrowing me))) ∧
    (∀ k ob, lookupA s.investingStates k = some ob →
      getInvestingOrderList db me s k = (s, some ob)) ∧
    (∀ k t, s.investingTrie = some t → lookupA s.investingStates k = none →
      lookupA t k = none → getInvestingOrderList db me s k = (s, none)) ∧
    (∀ k t enc, s.investingTrie = some t → lookupA s.investingStates k = none →
      lookupA t k = some enc → decodeItemList enc = none →
      getInvestingOrderList db me s k = (s, none)) ∧
    (∀ k t enc d, s.investingTrie = some t → lookupA s.investingStates k = none →
      lookupA t k = some enc → decodeItemList enc = some d →
      getInvestingOrderList db me s k =
        ({ s with
            investingStates :=
              insertA s.investingStates k
                (newItemListState Side.INVESTING s.lendingBook k d CbTag.markBorrowing me) },
          some (newItemListState Side.INVESTING s.lendingBook k d CbTag.markBorrowing me))) ∧
    (∀ k ob, lookupA s.liquidationTimeStates k = some ob →
      getLiquidationTimeOrderList db me s k = (s, some ob)) ∧
    (∀ k t, s.liquidationTimeTrie = some t →
      lookupA s.liquidationTimeStates k = none → lookupA t k = none →
      getLiquidationTimeOrderList db me s k = (s, none)) ∧
    (∀ k t enc, s.liquidationTimeTrie = some t →
      lookupA s.liquidationTimeStates k = none → lookupA t k = some enc →
      decodeItemList enc = none →
      getLiquidationTimeOrderList db me s k = (s, none)) ∧
    (∀ k t enc d, s.liquidationTimeTrie = some t →
      lookupA s.liquidationTimeStates k = none → lookupA t k = some enc →
      decodeItemList enc = some d →
      getLiquidationTimeOrderList db me s k =
        ({ s with
            liquidationTimeStates :=
              insertA s.liquidationTimeStates k
                (newLiquidationTimeState s.lendingBook k d CbTag.markInvesting me) },
          some (newLiquidationTimeState s.lendingBook k d CbTag.markInvesting me))) ∧
    (∀ k ob, lookupA s.lendingItemStates k = some ob →
      getLendingItem db me s k = (s, some ob)) ∧
    (∀ k t, s.lendingTrie = some t → lookupA s.lendingItemStates k = none →
      lookupA t k = none → getLendingItem db me s k = (s, none)) ∧
    (∀ k t enc, s.lendingTrie = some t → lookupA s.lendingItemStates k = none →
      lookupA t k = some enc → decodeLendingItem enc = none →
      getLendingItem db me s k = (s, none)) ∧
    (∀ k t enc d, s.lendingTrie = some t → lookupA s.lendingItemStates k = none →
      lookupA t k = some enc → decodeLendingItem enc = some d →
      getLendingItem db me s k =
        ({ s with
            lendingItemStates :=
              insertA s.lendingItemStates k
                (newLendinItemState s.lendingBook k d CbTag.markLendingItem me) },
          some (newLendinItemState s.lendingBook k d CbTag.markLendingItem me))) := by
  refine ⟨?_, ?_, ?_, ?_, ?_, ?_, ?_, ?_, ?_, ?_, ?_, ?_, ?_, ?_, ?_, ?_⟩
  · intro k ob h1
    simp [getBorrowingOrderList, h1]
  · intro k t hT h1 h2
    simp [getBorrowingOrderList, h1, getBorrowingTrie, hT, h2]
  · intro k t enc hT h1 h2 h3
    simp [getBorrowingOrderList, h1, getBorrowingTrie, hT, h2, h3]
  · intro k t enc d hT h1 h2 h3
    simp [getBorrowingOrderList, h1, getBorrowingTrie, hT, h2, h3]
  · intro k ob h1
    simp [getInvestingOrderList, h1]
  · intro k t hT h1 h2
    simp [getInvestingOrderList, h1, getInvestingTrie, hT, h2]
  · intro k t enc hT h1 h2 h3
    simp [getInvestingOrderList, h1, getInvestingTrie, hT, h2, h3]
  · intro k t enc d hT h1 h2 h3
    simp [getInvestingOrderList, h1, getInvestingTrie, hT, h2, h3]
  · intro k ob h1
    simp [getLiquidationTimeOrderList, h1]
  · intro k t hT h1 h2
    simp [getLiquidationTimeOrderList, h1, getLiquidationTimeTrie, hT, h2]
  · intro k t enc hT h1 h2 h3
    simp [getLiquidationTimeOrderList, h1, getLiquidationTimeTrie, hT, h2, h3]
  · intro k t enc d hT h1 h2 h3
    simp [getLiquidationTimeOrderList, h1, getLiquidationTimeTrie, hT, h2, h3]
  · intro k ob h1
    simp [getLendingItem, h1]
  · intro k t hT h1 h2
    simp [getLendingItem, h1, getLendingItemTrie, hT, h2]
  · intro k t enc hT h1 h2 h3
    simp [getLendingItem, h1, getLendingItemTrie, hT, h2, h3]
  · intro k t enc d hT h1 h2 h3
    simp [getLendingItem, h1, getLendingItemTrie, hT, h2, h3]

/-- C7 witness: all sixteen getter branches of the theorem evaluated on
`sGetter` — a cached object at key 1 in each cache, a trie miss at key 5, a
malformed leaf at key 2 and a well-formed leaf at key 3 in each trie. -/
theorem claim_C7_witness :
    lendingExchangeState.getBorrowingOrderList dbNone OwnerTag.original sGetter 1 =
      (sGetter, some objCacheHit) ∧
    lendingExchangeState.getBorrowingOrderList dbNone OwnerTag.original sGetter 5 =
      (sGetter, none) ∧
    lendingExchangeState.getBorrowingOrderList dbNone OwnerTag.original sGetter 2 =
      (sGetter, none) ∧
    lendingExchangeState.getBorrowingOrderList dbNone OwnerTag.original sGetter 3 =
      ({ sGetter with
          borrowingStates :=
            insertA sGetter.borrowingStates 3
              (newItemListState Side.BORROWING sGetter.lendingBook 3
                { Root := EmptyHash, Volume := 4 } CbTag.markBorrowing OwnerTag.original) },
        some (newItemListState Side.BORROWING sGetter.lendingBook 3
          { Root := EmptyHash, Volume := 4 } CbTag.markBorrowing OwnerTag.original)) ∧
    lendingExchangeState.getInvestingOrderList dbNone OwnerTag.original sGetter 1 =
      (sGetter, some objCacheHitInv) ∧
    lendingExchangeState.getInvestingOrderList dbNone OwnerTag.original sGetter 5 =
      (sGetter, none) ∧
    lendingExchangeState.getInvestingOrderList dbNone OwnerTag.original sGetter 2 =
      (sGetter, none) ∧
    lendingExchangeState.getInvestingOrderList dbNone OwnerTag.original sGetter 3 =
      ({ sGetter with
          investingStates :=
            insertA sGetter.investingStates 3
              (newItemListState Side.INVESTING sGetter.lendingBook 3
                { Root := EmptyHash, Volume := 4 } CbTag.markBorrowing OwnerTag.original) },
        some (newItemListState Side.INVESTING sGetter.lendingBook 3
          { Root := EmptyHash, Volume := 4 } CbTag.markBorrowing OwnerTag.original)) ∧
    lendingExchangeState.getLiquidationTimeOrderList dbNone OwnerTag.original sGetter 1 =
      (sGetter, some objCacheHitLiq) ∧
    lendingExchangeState.getLiquidationTimeOrderList dbNone OwnerTag.original sGetter 5 =
      (sGetter, none) ∧
    lendingExchangeState.getLiquidationTimeOrderList dbNone OwnerTag.original sGetter 2 =
      (sGetter, none) ∧
    lendingExchangeState.getLiquidationTimeOrderList dbNone OwnerTag.original sGetter 3 =
      ({ sGetter with
          liquidationTimeStates :=
            insertA sGetter.liquidationTimeStates 3
              (newLiquidationTimeState sGetter.lendingBook 3
                { Root := EmptyHash, Volume := 4 } CbTag.markInvesting OwnerTag.original) },
        some (newLiquidationTimeState sGetter.lendingBook 3
          { Root := EmptyHash, Volume := 4 } CbTag.markInvesting OwnerTag.original)) ∧
    lendingExchangeState.getLendingItem dbNone OwnerTag.original sGetter 1 =
      (sGetter, some objCacheHitItem) ∧
    lendingExchangeState.getLendingItem dbNone OwnerTag.original sGetter 5 =
      (sGetter, none) ∧
    lendingExchangeState.getLendingItem dbNone OwnerTag.original sGetter 2 =
      (sGetter, none) ∧
    lendingExchangeState.getLendingItem dbNone OwnerTag.original sGetter 3 =
      ({ sGetter with
          lendingItemStates :=
            insertA sGetter.lendingItemStates 3
              (newLendinItemState sGetter.lendingBook 3 orderA
                CbTag.markLendingItem OwnerTag.original) },
        some (newLendinItemState sGetter.lendingBook 3 orderA
          CbTag.markLendingItem OwnerTag.original)) := by
  have h := claim_C7_getter_absence_semantics dbNone OwnerTag.original sGetter
  obtain ⟨b1, b2, b3, b4, i1, i2, i3, i4, q1, q2, q3, q4, l1, l2, l3, l4⟩ := h
  refine ⟨b1 1 objCacheHit (by decide),
    b2 5 tGetter rfl (by decide) (by decide),
    b3 2 tGetter [99] rfl (by decide) (by decide) (by decide),
    b4 3 tGetter (encodeItemList { Root := EmptyHash, Volume := 4 })
      { Root := EmptyHash, Volume := 4 } rfl (by decide) (by decide) (by decide),
    i1 1 objCacheHitInv (by decide),
    i2 5 tGetter rfl (by decide) (by decide),
    i3 2 tGetter [99] rfl (by decide) (by decide) (by decide),
    i4 3 tGetter (encodeItemList { Root := EmptyHash, Volume := 4 })
      { Root := EmptyHash, Volume := 4 } rfl (by decide) (by decide) (by decide),
    q1 1 objCacheHitLiq (by decide),
    q2 5 tGetter rfl (by decide) (by decide),
    q3 2 tGetter [99] rfl (by decide) (by decide) (by decide),
    q4 3 tGetter (encodeItemList { Root := EmptyHash, Volume := 4 })
      { Root := EmptyHash, Volume := 4 } rfl (by decide) (by decide) (by decide),
    l1 1 objCacheHitItem (by decide),
    l2 5 tOrderGetter rfl (by decide) (by decide),
    l3 2 tOrderGetter [99] rfl (by decide) (by decide) (by decide),
    l4 3 tOrderGetter (encodeLendingItem orderA) orderA rfl (by decide)
      (by decide) (by decide)⟩

/-- C4 counterexample: evaluating the creates on a clean state with empty
loaded tries.  `createLendingItem` leaves the lending-item trie empty (no
eager serialization/write of the created object), and `createLiquidationTime`
leaves the liquidation-time trie empty, marks the LENDING-ITEM dirty set
instead of the liquidation-time one, and never fires the onDirty callback —
refuting the claim that each of the four create operations marks its own
collection's dirty set and eagerly writes the encoded object into its owning
trie. -/
theorem claim_C4_counterexample :
    sAfterCreateItem.lendingTrie = some [] ∧
    sAfterCreateLiq.liquidationTimeTrie = some [] ∧
    sAfterCreateLiq.liquidationTimestatesDirty = [] ∧
    sAfterCreateLiq.lendingItemStatesDirty = [7] ∧
    sAfterCreateLiq.onDirtyCalls = 0 ∧
    sAfterCreateLiq.onDirty = true ∧
    (lookupA sAfterCreateLiq.liquidationTimeStates 7).isSome = true ∧
    (lookupA sAfterCreateItem.lendingItemStates 9).isSome = true := by decide

open lendingExchangeState in
/-- C4 amended: `createInvestingOrderList` and `createBorrowingOrderList`
construct the new object, cache it, mark it dirty in the same collection, and
eagerly write its encoding into the owning trie (panicking only if the encode
could fail, which it cannot); `createLendingItem` caches and dirty-marks under
the derived order-id key but performs no trie write; `createLiquidationTime`
caches under the time key, marks the LENDING-ITEM dirty set, performs no trie
write and never fires onDirty. -/
theorem claim_C4_create_operations_amended (db : DB) (me : OwnerTag)
    (s : lendingExchangeState) :
    (∀ price t s1, s.investingTrie = some t →
      createInvestingOrderList db me s price = some s1 →
      lookupA s1.investingStates price =
        some (newItemListState Side.INVESTING s.lendingBook price itemListZero
          CbTag.markInvesting me) ∧
      price ∈ s1.investingStatesDirty ∧
      s1.investingTrie = some (trieUpdate t price (encodeItemList itemListZero)) ∧
      lookupA (trieUpdate t price (encodeItemList itemListZero)) price =
        some (encodeItemList itemListZero)) ∧
    (∀ price t s1, s.borrowingTrie = some t →
      createBorrowingOrderList db me s price = some s1 →
      lookupA s1.borrowingStates price =
        some (newItemListState Side.BORROWING s.lendingBook price itemListZero
          CbTag.markBorrowing me) ∧
      price ∈ s1.borrowingStatesDirty ∧
      s1.borrowingTrie = some (trieUpdate t price (encodeItemList itemListZero)) ∧
      lookupA (trieUpdate t price (encodeItemList itemListZero)) price =
        some (encodeItemList itemListZero)) ∧
    (∀ orderId order,
      lookupA (createLendingItem db me s orderId order).lendingItemStates
          (common_BigToHash order.OrderID) =
        some (newLendinItemState s.lendingBook orderId order
          CbTag.markLendingItem me) ∧
      common_BigToHash order.OrderID ∈
        (createLendingItem db me s orderId order).lendingItemStatesDirty ∧
      (createLendingItem db me s orderId order).lendingTrie = s.lendingTrie ∧
      (createLendingItem db me s orderId order).investingTrie = s.investingTrie ∧
      (createLendingItem db me s orderId order).borrowingTrie = s.borrowingTrie ∧
      (createLendingItem db me s orderId order).liquidationTimeTrie =
        s.liquidationTimeTrie) ∧
    (∀ time,
      lookupA (createLiquidationTime db me s time).liquidationTimeStates time =
        some (newLiquidationTimeState time s.lendingBook itemListZero
          CbTag.markLendingItem me) ∧
      time ∈ (createLiquidationTime db me s time).lendingItemStatesDirty ∧
      (createLiquidationTime db me s time).liquidationTimestatesDirty =
        s.liquidationTimestatesDirty ∧
      (createLiquidationTime db me s time).liquidationTimeTrie =
        s.liquidationTimeTrie ∧
      (createLiquidationTime db me s time).lendingTrie = s.lendingTrie ∧
      (createLiquidationTime db me s time).onDirty = s.onDirty ∧
      (createLiquidationTime db me s time).onDirtyCalls = s.onDirtyCalls) ∧
    (∀ o : itemListState, encodeItemListState o = some (encodeItemList o.data)) := by
  refine ⟨?_, ?_, ?_, ?_, fun o => rfl⟩
  · intro price t s1 hT h
    simp only [createInvestingOrderList, encodeItemListState, hT,
      Option.some.injEq] at h
    subst h
    refine ⟨?_, ?_, ?_, ?_⟩
    · simp [lookupA_insertA_self]
    · simp [mem_insertKey_self]
    · simp [newItemListState]
    · exact lookupA_insertA_self t price (encodeItemList itemListZero)
  · intro price t s1 hT h
    simp only [createBorrowingOrderList, encodeItemListState, hT,
      Option.some.injEq] at h
    subst h
    refine ⟨?_, ?_, ?_, ?_⟩
    · simp [lookupA_insertA_self]
    · simp [mem_insertKey_self]
    · simp [newItemListState]
    · exact lookupA_insertA_self t price (encodeItemList itemListZero)
  · intro orderId order
    refine ⟨?_, ?_, ?_, ?_, ?_, ?_⟩
    · simp [createLendingItem, lookupA_insertA_self]
    · simp [createLendingItem, mem_insertKey_self]
    · simp [createLendingItem]
    · simp [createLendingItem]
    · simp [createLendingItem]
    · simp [createLendingItem]
  · intro time
    refine ⟨?_, ?_, ?_, ?_, ?_, ?_, ?_⟩
    · simp [createLiquidationTime, lookupA_insertA_self]
    · simp [createLiquidationTime, mem_insertKey_self]
    · simp [createLiquidationTime]
    · simp [createLiquidationTime]
    · simp [createLiquidationTime]
    · simp [createLiquidationTime]
    · simp [createLiquidationTime]

/-- C4 witness: the amended theorem evaluated on `sClean` — the investing and
borrowing creates write their leaf eagerly, the lending-item and
liquidation-time creates only touch the caches and dirty sets. -/
theorem claim_C4_witness :
    lendingExchangeState.createInvestingOrderList dbNone OwnerTag.original
      sClean 5 = some sInvCreated ∧
    lookupA sInvCreated.investingStates 5 =
      some (newItemListState Side.INVESTING sClean.lendingBook 5 itemListZero
        CbTag.markInvesting OwnerTag.original) ∧
    (5 : Hash) ∈ sInvCreated.investingStatesDirty ∧
    sInvCreated.investingTrie =
      some (trieUpdate [] 5 (encodeItemList itemListZero)) ∧
    lendingExchangeState.createBorrowingOrderList dbNone OwnerTag.original
      sClean 6 = some sBorCreated ∧
    lookupA sBorCreated.borrowingStates 6 =
      some (newItemListState Side.BORROWING sClean.lendingBook 6 itemListZero
        CbTag.markBorrowing OwnerTag.original) ∧
    (6 : Hash) ∈ sBorCreated.borrowingStatesDirty ∧
    sAfterCreateItem.lendingTrie = sClean.lendingTrie ∧
    sAfterCreateLiq.liquidationTimeTrie = sClean.liquidationTimeTrie ∧
    sAfterCreateLiq.liquidationTimestatesDirty = sClean.liquidationTimestatesDirty ∧
    (7 : Hash) ∈ sAfterCreateLiq.lendingItemStatesDirty ∧
    sAfterCreateLiq.onDirtyCalls = sClean.onDirtyCalls := by
  obtain ⟨hi, hb, hitem, hliq, henc⟩ :=
    claim_C4_create_operations_amended dbNone OwnerTag.original sClean
  have hci : lendingExchangeState.createInvestingOrderList dbNone
      OwnerTag.original sClean 5 = some sInvCreated := by decide
  have hcb : lendingExchangeState.createBorrowingOrderList dbNone
      OwnerTag.original sClean 6 = some sBorCreated := by decide
  obtain ⟨i1, i2, i3, _⟩ := hi 5 [] sInvCreated rfl hci
  obtain ⟨b1, b2, _, _⟩ := hb 6 [] sBorCreated rfl hcb
  exact ⟨hci, i1, i2, i3, hcb, b1, b2, (hitem 9 orderA).2.2.1,
    (hliq 7).2.2.2.1, (hliq 7).2.2.1, (hliq 7).2.1, (hliq 7).2.2.2.2.2.2⟩

/-- C6 counterexample: with the onDirty callback still set, running the single
mutating operation `createLiquidationTime(7)` invokes the callback zero times
and leaves it set — refuting the claim that the callback is invoked exactly
once, on the first mutating operation of the sequence. -/
theorem claim_C6_counterexample :
    sClean.onDirty = true ∧
    applySeq dbNone [MutOp.createLiquidationTimeOp 7] sClean =
      some sAfterCreateLiq ∧
    sAfterCreateLiq.onDirtyCalls = sClean.onDirtyCalls ∧
    sAfterCreateLiq.onDirty = true := by decide

/-- C6 amended: across any successful sequence of the listed mutating
operations starting with the callback set, the owner-level onDirty callback is
invoked exactly once — on the first operation other than
`createLiquidationTime` — and is cleared there, so no later operation invokes
it again; `createLiquidationTime` never invokes it, every other listed
operation does when the callback is still set. -/
theorem claim_C6_onDirty_amended (db : DB) (ops : List MutOp)
    (s0 s1 : lendingExchangeState) (h0 : s0.onDirty = true)
    (hrun : applySeq db ops s0 = some s1) :
    s1.onDirtyCalls = s0.onDirtyCalls + (if ops.any opFires then 1 else 0) ∧
    s1.onDirty = !(ops.any opFires) ∧
    (∀ tm : Hash, opFires (MutOp.createLiquidationTimeOp tm) = false) ∧
    (∀ n : Nat, opFires (MutOp.setNonceOp n) = true) ∧
    (∀ p : Hash, opFires (MutOp.createInvestingOp p) = true) ∧
    (∀ p : Hash, opFires (MutOp.createBorrowingOp p) = true) ∧
    (∀ (oid : Hash) (ord : LendingItem),
      opFires (MutOp.createLendingItemOp oid ord) = true) ∧
    (∀ p : Hash, opFires (MutOp.markInvestingOp p) = true) ∧
    (∀ p : Hash, opFires (MutOp.markBorrowingOp p) = true) ∧
    (∀ p : Hash, opFires (MutOp.markLendingItemOp p) = true) ∧
    (∀ p : Hash, opFires (MutOp.markLiquidationTimeOp p) = true) := by
  have h := applySeq_onDirty_spec db ops s0 s1 hrun
  rw [h0] at h
  refine ⟨by simpa using h.1, by simpa using h.2, fun tm => rfl, fun n => rfl,
    fun p => rfl, fun p => rfl, fun oid ord => rfl, fun p => rfl, fun p => rfl,
    fun p => rfl, fun p => rfl⟩

/-- C6 witness: the amended theorem evaluated on `sClean` under the sequence
[MarkBorrowingDirty 3, SetNonce 5] — the callback fires exactly once and ends
cleared. -/
theorem claim_C6_witness :
    sClean.onDirty = true ∧
    applySeq dbNone [MutOp.markBorrowingOp 3, MutOp.setNonceOp 5] sClean =
      some sFired ∧
    sFired.onDirtyCalls = sClean.onDirtyCalls + 1 ∧
    sFired.onDirty = false := by
  have h := claim_C6_onDirty_amended dbNone
    [MutOp.markBorrowingOp 3, MutOp.setNonceOp 5] sClean sFired
    (by decide) (by decide)
  exact ⟨by decide, by decide, by simpa using h.1, by simpa using h.2.1⟩
